import Mathlib

/-!
Verification of the RF anomalous-data correction system.

The Python sources embedded here are `src/correction_engine.py`,
`src/template_manager.py` and `src/extended_cell_detector.py`.
`src/correction_engine.py` carries unresolved merge-conflict markers; the
embedding follows the `Stashed changes` branch, which is the variant the rest
of the system (extended-cell skipping, template backfill, provenance tags)
is written against.  Where the discarded `Updated upstream` branch differs in
a way that matters to a claim, this is noted at the theorem.

Modelling conventions:
* Python floats are modelled as exact rationals (`MyQ`, an unnormalised
  numerator/denominator pair whose arithmetic reduces inside the kernel;
  `MyQ.toRat` maps into `ℚ` for order-theoretic statements).
* Pandas missing values (`NaN`/`None`) are both modelled as `Value.none`;
  the data processed here never compares two NaNs for equality, so the
  `NaN != NaN` quirk is not load-bearing.
* Strings are processed through structural functions on `List Char`
  (Python `str.lower`, `str.strip`, ... are ASCII-modelled).
-/

namespace RFCheck

/-- Exact rational: numerator and positive denominator, kept unnormalised so
that every operation reduces by kernel computation. -/
structure MyQ where
  num : Int
  den : Nat
deriving DecidableEq, Repr

def MyQ.ofInt (n : Int) : MyQ := ⟨n, 1⟩

def MyQ.ofNat (n : Nat) : MyQ := ⟨(n : Int), 1⟩

def MyQ.zero : MyQ := ⟨0, 1⟩

def MyQ.add (a b : MyQ) : MyQ := ⟨a.num * (b.den : Int) + b.num * (a.den : Int), a.den * b.den⟩

def MyQ.sub (a b : MyQ) : MyQ := ⟨a.num * (b.den : Int) - b.num * (a.den : Int), a.den * b.den⟩

def MyQ.mul (a b : MyQ) : MyQ := ⟨a.num * b.num, a.den * b.den⟩

/-- Division; a zero divisor yields 0 (the guarded Python code never divides
by zero, see the discrepancy-score guard). -/
def MyQ.div (a b : MyQ) : MyQ :=
  if b.num = 0 then ⟨0, 1⟩
  else if 0 < b.num then ⟨a.num * (b.den : Int), a.den * b.num.toNat⟩
  else ⟨-(a.num * (b.den : Int)), a.den * (-b.num).toNat⟩

def MyQ.beq (a b : MyQ) : Bool := a.num * (b.den : Int) = b.num * (a.den : Int)

def MyQ.ble (a b : MyQ) : Bool := a.num * (b.den : Int) ≤ b.num * (a.den : Int)

def MyQ.blt (a b : MyQ) : Bool := a.num * (b.den : Int) < b.num * (a.den : Int)

def MyQ.floor (a : MyQ) : Int := Int.fdiv a.num (a.den : Int)

def MyQ.toRat (a : MyQ) : ℚ := (a.num : ℚ) / (a.den : ℚ)

/-- Python banker's rounding of a rational to the nearest integer
(round-half-to-even, as `round` does on floats). -/
def MyQ.roundHalfEven (a : MyQ) : Int :=
  let f := a.floor
  if MyQ.beq (MyQ.sub a (MyQ.ofInt f)) ⟨1, 2⟩ then
    (if f % 2 = 0 then f else f + 1)
  else
    MyQ.floor (MyQ.add a ⟨1, 2⟩)

/-- Embedding of Python `round(x, 6)`. -/
def pyRound6 (a : MyQ) : MyQ :=
  MyQ.div (MyQ.ofInt (MyQ.roundHalfEven (MyQ.mul a ⟨1000000, 1⟩))) ⟨1000000, 1⟩

/-- Positive-denominator invariant used when transporting comparisons to `ℚ`. -/
def MyQ.Pos (a : MyQ) : Prop := 0 < a.den

theorem MyQ.toRat_le_iff {a b : MyQ} (ha : a.Pos) (hb : b.Pos) :
    a.ble b = true ↔ a.toRat ≤ b.toRat := by
  have ha' : (0 : ℚ) < (a.den : ℚ) := by exact_mod_cast ha
  have hb' : (0 : ℚ) < (b.den : ℚ) := by exact_mod_cast hb
  constructor
  · intro h
    have h' : (a.num : ℚ) * (b.den : ℚ) ≤ (b.num : ℚ) * (a.den : ℚ) := by
      have := of_decide_eq_true h
      exact_mod_cast this
    rw [MyQ.toRat, MyQ.toRat, div_le_div_iff ha' hb']
    linarith
  · intro h
    rw [MyQ.toRat, MyQ.toRat, div_le_div_iff ha' hb'] at h
    have h' : a.num * (b.den : Int) ≤ b.num * (a.den : Int) := by exact_mod_cast h
    exact decide_eq_true h'

theorem MyQ.toRat_lt_iff {a b : MyQ} (ha : a.Pos) (hb : b.Pos) :
    a.blt b = true ↔ a.toRat < b.toRat := by
  have ha' : (0 : ℚ) < (a.den : ℚ) := by exact_mod_cast ha
  have hb' : (0 : ℚ) < (b.den : ℚ) := by exact_mod_cast hb
  constructor
  · intro h
    have h' : (a.num : ℚ) * (b.den : ℚ) < (b.num : ℚ) * (a.den : ℚ) := by
      have := of_decide_eq_true h
      exact_mod_cast this
    rw [MyQ.toRat, MyQ.toRat, div_lt_div_iff ha' hb']
    linarith
  · intro h
    rw [MyQ.toRat, MyQ.toRat, div_lt_div_iff ha' hb'] at h
    have h' : a.num * (b.den : Int) < b.num * (a.den : Int) := by exact_mod_cast h
    exact decide_eq_true h'

/-! ### Characters and strings (ASCII model of the Python operations used) -/

def quoteChar : Char := Char.ofNat 39

def dquoteChar : Char := Char.ofNat 34

def charLower (c : Char) : Char :=
  if 'A' ≤ c ∧ c ≤ 'Z' then Char.ofNat (c.toNat + 32) else c

def charUpper (c : Char) : Char :=
  if 'a' ≤ c ∧ c ≤ 'z' then Char.ofNat (c.toNat - 32) else c

def isDigitChar (c : Char) : Bool := '0' ≤ c ∧ c ≤ '9'

def isSpaceChar (c : Char) : Bool :=
  c = ' ' ∨ c = Char.ofNat 9 ∨ c = Char.ofNat 10 ∨ c = Char.ofNat 13 ∨
  c = Char.ofNat 11 ∨ c = Char.ofNat 12

def lowerStr (s : String) : String := String.mk (s.data.map charLower)

def upperStr (s : String) : String := String.mk (s.data.map charUpper)

/-- Python `str.strip()` (whitespace from both ends). -/
def stripStr (s : String) : String :=
  String.mk (((s.data.dropWhile isSpaceChar).reverse.dropWhile isSpaceChar).reverse)

def digitVal (c : Char) : Nat := c.toNat - 48

def digitsToNat (ds : List Char) : Nat :=
  ds.foldl (fun acc c => 10 * acc + digitVal c) 0

def digitChar (n : Nat) : Char := Char.ofNat (48 + n)

def natDigitsAux : Nat → Nat → List Char
  | 0, _ => []
  | fuel + 1, n => if n < 10 then [digitChar n] else natDigitsAux fuel (n / 10) ++ [digitChar (n % 10)]

def natToStr (n : Nat) : String := String.mk (natDigitsAux (n + 1) n)

def intToStr (i : Int) : String :=
  if i < 0 then String.mk ('-' :: (natToStr (-i).toNat).data) else natToStr i.toNat

/-- Rendering of a float value by Python `str`; any injective rendering would
do for the claims proved here (only distinctness of representations matters). -/
def ratToStr (a : MyQ) : String :=
  if (a.den : Int) ∣ a.num then String.mk ((intToStr (a.floor)).data ++ ['.', '0'])
  else String.mk ((intToStr a.num).data ++ ['/'] ++ (natToStr a.den).data)

/-! ### Cell values

A pandas cell / Python scalar.  `Value.none` stands for both Python `None`
and pandas `NaN` (the rows handled here never rely on `NaN != NaN`). -/

inductive Value where
  | none : Value
  | str : String → Value
  | rat : MyQ → Value
  | bool : Bool → Value
deriving DecidableEq, Repr

/-- Python truthiness of a cell value. -/
def Value.truthy : Value → Bool
  | .none => false
  | .str s => s ≠ ""
  | .rat q => q.num ≠ 0
  | .bool b => b

/-- Python `str(v)`. -/
def pyStr : Value → String
  | .none => "None"
  | .str s => s
  | .rat q => ratToStr q
  | .bool b => if b then "True" else "False"

/-- Python / pandas `==` between cell values (floats compare by numeric value,
`True == 1.0` holds, `None` equals itself in the model). -/
def Value.pyEq : Value → Value → Bool
  | .none, .none => true
  | .str a, .str b => a = b
  | .rat a, .rat b => MyQ.beq a b
  | .bool a, .bool b => a = b
  | .bool a, .rat b => MyQ.beq (MyQ.ofNat (if a then 1 else 0)) b
  | .rat a, .bool b => MyQ.beq a (MyQ.ofNat (if b then 1 else 0))
  | _, _ => false

/-- Exponent part of a float literal: `e`/`E`, optional sign, digits. -/
def pyFloatExponent (mant : MyQ) (cs : List Char) : Option MyQ :=
  match cs with
  | [] => some mant
  | e :: rest =>
    if e = 'e' ∨ e = 'E' then
      let (neg, ds) :=
        match rest with
        | '-' :: t => (true, t)
        | '+' :: t => (false, t)
        | t => (false, t)
      if ds ≠ [] ∧ ds.all isDigitChar then
        let ex := digitsToNat ds
        some (if neg then MyQ.div mant ⟨(10 ^ ex : Nat), 1⟩ else MyQ.mul mant ⟨(10 ^ ex : Nat), 1⟩)
      else Option.none
    else Option.none

/-- Unsigned mantissa with optional decimal point, then optional exponent. -/
def pyFloatBody (cs : List Char) : Option MyQ :=
  let ip := cs.takeWhile isDigitChar
  let rest := cs.drop ip.length
  match rest with
  | '.' :: r2 =>
    let fp := r2.takeWhile isDigitChar
    if ip = [] ∧ fp = [] then Option.none
    else
      pyFloatExponent
        ⟨(digitsToNat ip * 10 ^ fp.length + digitsToNat fp : Nat), 10 ^ fp.length⟩
        (r2.drop fp.length)
  | _ =>
    if ip = [] then Option.none
    else pyFloatExponent ⟨(digitsToNat ip : Nat), 1⟩ rest

/-- Embedding of Python `float(s)` for finite decimal notation (surrounding
whitespace and a sign are accepted; `inf`/`nan`/underscored digits do not
occur in this data and are parse failures here). -/
def pyFloatOfStr (s : String) : Option MyQ :=
  let cs := (s.data.dropWhile isSpaceChar).reverse.dropWhile isSpaceChar |>.reverse
  match cs with
  | '-' :: t => (pyFloatBody t).map (fun q => MyQ.sub MyQ.zero q)
  | '+' :: t => pyFloatBody t
  | t => pyFloatBody t

/-- Python `float(v)` restricted to the cases reachable behind a truthiness
filter; `Option.none` is the `ValueError` outcome. -/
def floatOfValue : Value → Option MyQ
  | .none => Option.none
  | .rat q => some q
  | .bool b => some (MyQ.ofNat (if b then 1 else 0))
  | .str s => pyFloatOfStr s

/-! ### Generic list helpers -/

/-- Distinct elements in first-occurrence order under a custom equality,
matching `set(...)` cardinality and pandas `unique()`. -/
def uniqueListBy (eq : α → α → Bool) (l : List α) : List α :=
  (l.foldl (fun acc a => if acc.any (eq a) then acc else a :: acc) []).reverse

/-- Most frequent element, ties resolved to the first-encountered one, as in
`Counter.most_common` / `value_counts` over this data. -/
def mostFrequentBy (eq : α → α → Bool) (l : List α) : Option α :=
  match uniqueListBy eq l with
  | [] => Option.none
  | u :: us =>
    some (us.foldl
      (fun best x => if l.countP (eq best) < l.countP (eq x) then x else best) u)

def insertSortedBy (le : α → α → Bool) (x : α) : List α → List α
  | [] => [x]
  | y :: r => if le x y then x :: y :: r else y :: insertSortedBy le x r

/-- Insertion sort (embeds `np.sort` as used under `np.median` and the sorted
group keys of pandas `groupby`). -/
def sortBy (le : α → α → Bool) (l : List α) : List α := l.foldr (insertSortedBy le) []

/-- Embedding of `np.median`: sort, take the middle value, or the mean of the
two middle values for even length. -/
def medianQ (l : List MyQ) : MyQ :=
  let s := sortBy MyQ.ble l
  let n := l.length
  if n % 2 = 1 then (s.getD (n / 2) MyQ.zero)
  else MyQ.div (MyQ.add (s.getD (n / 2 - 1) MyQ.zero) (s.getD (n / 2) MyQ.zero)) ⟨2, 1⟩

/-- Python `max` over a nonempty float list (first argument is the head). -/
def listMaxQ (x : MyQ) (l : List MyQ) : MyQ :=
  l.foldl (fun b y => if MyQ.blt b y then y else b) x

/-- Python `min` over a nonempty float list. -/
def listMinQ (x : MyQ) (l : List MyQ) : MyQ :=
  l.foldl (fun b y => if MyQ.blt y b then y else b) x

/-- `[f x for x in l]` under a `try/except` that aborts on the first failure. -/
def traverseOption (f : α → Option β) : List α → Option (List β)
  | [] => some []
  | a :: r =>
    match f a, traverseOption f r with
    | some b, some bs => some (b :: bs)
    | _, _ => Option.none

/-! ### Configuration (`config/settings.yaml`, consumed but not owned) -/

structure Config where
  latitudeMin : MyQ
  latitudeMax : MyQ
  longitudeMin : MyQ
  longitudeMax : MyQ
  heightMin : MyQ
  heightMax : MyQ
  coordinateThreshold : MyQ
  structureTypePriority : List (String × Int)
  requireManualReviewThreshold : MyQ
  extendedCellDistanceThreshold : MyQ
  useFuzzyMatching : Bool
  similarityThreshold : MyQ
deriving DecidableEq, Repr

/-! ### `correction_engine.parse_list_values`

The regex `findall` over `'([^']*)'|"([^"]*)"|(-?\d+\.?\d*)`: scan left to
right, at each position try a single-quoted token, a double-quoted token,
then a bare signed decimal; matches with an empty group are dropped. -/

/-- Content up to the closing quote `q`, plus the remainder after it. -/
def takeQuoted (q : Char) (cs : List Char) : Option (List Char × List Char) :=
  match cs.dropWhile (· ≠ q) with
  | [] => Option.none
  | _ :: rest => some (cs.takeWhile (· ≠ q), rest)

/-- A maximal `-?\d+\.?\d*` token starting here, plus the remainder. -/
def takeNumToken (cs : List Char) : Option (List Char × List Char) :=
  let (neg, cs1) := match cs with | '-' :: t => (true, t) | t => (false, t)
  let ds := cs1.takeWhile isDigitChar
  if ds = [] then Option.none
  else
    let sign := if neg then ['-'] else []
    match cs1.drop ds.length with
    | '.' :: cs3 =>
      let ds2 := cs3.takeWhile isDigitChar
      some (sign ++ ds ++ '.' :: ds2, cs3.drop ds2.length)
    | cs2 => some (sign ++ ds, cs2)

/-- Fueled scanner for the `findall`; the fuel is the input length, and each
step consumes at least one character. -/
def findTokensF : Nat → List Char → List String
  | 0, _ => []
  | _, [] => []
  | fuel + 1, c :: rest =>
    if c = quoteChar then
      match takeQuoted quoteChar rest with
      | some (tok, r) =>
        if tok = [] then findTokensF fuel r else String.mk tok :: findTokensF fuel r
      | Option.none => findTokensF fuel rest
    else if c = dquoteChar then
      match takeQuoted dquoteChar rest with
      | some (tok, r) =>
        if tok = [] then findTokensF fuel r else String.mk tok :: findTokensF fuel r
      | Option.none => findTokensF fuel rest
    else
      match takeNumToken (c :: rest) with
      | some (tok, r) => String.mk tok :: findTokensF fuel r
      | Option.none => findTokensF fuel rest

/-- Embedding of `RFDataCorrectionEngine.parse_list_values`. -/
def parseListValues (v : Value) : List Value :=
  if v = .none ∨ v = .str "[]" then []
  else
    match v with
    | .str s => (findTokensF s.data.length s.data).map Value.str
    | w => [w]

/-! ### Attribute selectors (`correction_engine.py`) -/

/-- Embedding of `normalize_owner` (the `None` branch is unreachable behind
the truthiness filter of its only caller). -/
def normalizeOwner (v : Value) : String := stripStr (upperStr (pyStr v))

/-- Embedding of `select_best_latitude`. -/
def selectBestLatitude (cfg : Config) (latList : List Value) : Option MyQ :=
  if latList = [] then Option.none
  else
    match traverseOption floatOfValue (latList.filter Value.truthy) with
    | Option.none => Option.none
    | some lats =>
      match lats.filter (fun x => MyQ.ble cfg.latitudeMin x && MyQ.ble x cfg.latitudeMax) with
      | [] => Option.none
      | v :: vs =>
        if MyQ.blt (MyQ.sub (listMaxQ v vs) (listMinQ v vs)) cfg.coordinateThreshold then
          some (pyRound6 (medianQ (v :: vs)))
        else
          some (pyRound6 (medianQ (v :: vs)))

/-- Embedding of `select_best_longitude`. -/
def selectBestLongitude (cfg : Config) (lonList : List Value) : Option MyQ :=
  if lonList = [] then Option.none
  else
    match traverseOption floatOfValue (lonList.filter Value.truthy) with
    | Option.none => Option.none
    | some lons =>
      match lons.filter (fun x => MyQ.ble cfg.longitudeMin x && MyQ.ble x cfg.longitudeMax) with
      | [] => Option.none
      | v :: vs =>
        if MyQ.blt (MyQ.sub (listMaxQ v vs) (listMinQ v vs)) cfg.coordinateThreshold then
          some (pyRound6 (medianQ (v :: vs)))
        else
          some (pyRound6 (medianQ (v :: vs)))

/-- Embedding of `select_best_structure_height`. -/
def selectBestStructureHeight (cfg : Config) (heightList : List Value) : Option MyQ :=
  if heightList = [] then Option.none
  else
    match traverseOption floatOfValue (heightList.filter Value.truthy) with
    | Option.none => Option.none
    | some heights =>
      match heights.filter (fun h => MyQ.ble cfg.heightMin h && MyQ.ble h cfg.heightMax) with
      | [] => Option.none
      | v :: vs => some (listMaxQ v vs)

/-- Embedding of `select_best_structure_owner`. -/
def selectBestStructureOwner (ownerList : List Value) : Option String :=
  if ownerList = [] then Option.none
  else
    match (ownerList.filter Value.truthy).map normalizeOwner with
    | [] => Option.none
    | ns => mostFrequentBy (fun a b => a = b) ns

/-- The stripped non-placeholder candidates of `select_best_structure_type`. -/
def validTypes (typeList : List Value) : List String :=
  (typeList.filterMap (fun t =>
    if Value.truthy t ∧ stripStr (pyStr t) ≠ "-" then some (stripStr (pyStr t))
    else Option.none))

/-- Priority of a type under the configured mapping (`priority.get(x, -1)`). -/
def typePriorityOf (cfg : Config) (t : String) : Int :=
  (List.lookup t cfg.structureTypePriority).getD (-1)

/-- Embedding of `select_best_structure_type`; Python `max(..., key=...)`
keeps the first maximum. -/
def selectBestStructureType (cfg : Config) (typeList : List Value) : Option String :=
  if typeList = [] then Option.none
  else
    match validTypes typeList with
    | [] => Option.none
    | t :: ts =>
      some (ts.foldl (fun b x => if typePriorityOf cfg b < typePriorityOf cfg x then x else b) t)

/-- Embedding of `calculate_discrepancy_score`. -/
def calculateDiscrepancyScore (valuesList : List Value) : MyQ :=
  if valuesList.length ≤ 1 then MyQ.zero
  else
    let uniqueValues := (uniqueListBy (fun a b => a = b)
      ((valuesList.filter Value.truthy).map pyStr)).length
    let totalValues := (valuesList.filter Value.truthy).length
    if totalValues = 0 then MyQ.zero
    else MyQ.div (MyQ.sub (MyQ.ofNat uniqueValues) ⟨1, 1⟩) (MyQ.ofNat totalValues)

/-! ### Rows, sheets and dictionaries -/

/-- A table row / a Python dict with string keys (association list in
insertion order). -/
abbrev Row := List (String × Value)

/-- `d.get(k)` with a `None` default (also pandas row label access). -/
def kvGet : Row → String → Value
  | [], _ => .none
  | (k, v) :: r, f => if f = k then v else kvGet r f

/-- `d.get(k)` distinguished from holding an explicit `None`. -/
def kvGetOpt : Row → String → Option Value
  | [], _ => Option.none
  | (k, v) :: r, f => if f = k then some v else kvGetOpt r f

/-- `d[k] = v`: replace in place, or append a new key at the end. -/
def kvSet (d : Row) (k : String) (v : Value) : Row :=
  if d.any (fun p => p.1 = k) then
    d.map (fun p => if p.1 = k then (k, v) else p)
  else d ++ [(k, v)]

/-- A worksheet: its column labels and its rows. -/
structure Sheet where
  cols : List String
  rows : List Row
deriving DecidableEq, Repr

/-- `row.get(label)` on a sheet row: `None` when the label is not a column. -/
def cellGet (cols : List String) (r : Row) (field : String) : Value :=
  if field ∈ cols then kvGet r field else .none

/-! ### `difflib.SequenceMatcher` (no junk: inputs here are short names) -/

def commonRunLen : List Char → List Char → Nat
  | a :: as, b :: bs => if a = b then commonRunLen as bs + 1 else 0
  | _, _ => 0

/-- `find_longest_match`: maximal common block, ties to the earliest start in
the first string, then in the second. -/
def longestMatch (a b : List Char) : Nat × Nat × Nat :=
  (List.range a.length).foldl
    (fun best i =>
      (List.range b.length).foldl
        (fun best j =>
          let k := commonRunLen (a.drop i) (b.drop j)
          if best.2.2 < k then (i, j, k) else best)
        best)
    (0, 0, 0)

/-- Total size of all matching blocks (recursive decomposition around the
longest match); the fuel only needs to exceed the summed lengths. -/
def matchedTotal : Nat → List Char → List Char → Nat
  | 0, _, _ => 0
  | fuel + 1, a, b =>
    let (i, j, k) := longestMatch a b
    if k = 0 then 0
    else
      matchedTotal fuel (a.take i) (b.take j) + k +
        matchedTotal fuel (a.drop (i + k)) (b.drop (j + k))

/-- `SequenceMatcher.ratio() = 2 * M / (len(a) + len(b))`. -/
def similarityScore (a b : List Char) : MyQ :=
  if a.length + b.length = 0 then ⟨1, 1⟩
  else
    MyQ.div (MyQ.ofNat (2 * matchedTotal (a.length + b.length) a b))
      (MyQ.ofNat (a.length + b.length))

def splitWsAux : List Char → List Char → List (List Char)
  | [], acc => if acc = [] then [] else [acc.reverse]
  | c :: r, acc =>
    if isSpaceChar c then
      (if acc = [] then splitWsAux r [] else acc.reverse :: splitWsAux r [])
    else splitWsAux r (c :: acc)

/-- Python `' '.join(s.split())`. -/
def collapseWs (cs : List Char) : List Char :=
  List.intercalate [' '] (splitWsAux cs [])

/-- The normalisation inside `calculate_name_similarity`: lowercase, strip,
drop dots and commas, hyphens to spaces, collapse whitespace runs. -/
def normalizeName (s : String) : List Char :=
  collapseWs
    (((stripStr (lowerStr s)).data.filterMap
      (fun c =>
        if c = '.' ∨ c = ',' then Option.none
        else if c = '-' then some ' '
        else some c)))

/-- Embedding of `TemplateManager.calculate_name_similarity`. -/
def calcNameSimilarity (name1 name2 : Value) : MyQ :=
  if ¬ Value.truthy name1 ∨ ¬ Value.truthy name2 then MyQ.zero
  else similarityScore (normalizeName (pyStr name1)) (normalizeName (pyStr name2))

/-! ### `TemplateManager` -/

/-- The consolidated reference template (`df_template`); the engine only keeps
a manager whose `station_id` grouping succeeded and is nonempty. -/
structure Template where
  cols : List String
  rows : List Row
deriving DecidableEq, Repr

/-- Embedding of `get_station_data`: the template rows of one station; the
empty list is the `None` / `KeyError` outcome (groups are never empty). -/
def getStationData (t : Template) (stationId : Value) : List Row :=
  if "station_id" ∈ t.cols then
    t.rows.filter (fun r => Value.pyEq (cellGet t.cols r "station_id") stationId)
  else []

/-- The running best fuzzy match: Python keeps the first candidate reaching a
strictly larger similarity, starting from `None` at similarity `0.0`. -/
def bestFuzzyMatch (templateName : Value) (candidates : List String) :
    Option String × MyQ :=
  candidates.foldl
    (fun best c =>
      let s := calcNameSimilarity templateName (.str c)
      if MyQ.blt best.2 s then (some c, s) else best)
    (Option.none, MyQ.zero)

/-- Python `template_name in candidate_names` (equality against each string
candidate; a non-string template name matches none of them). -/
def templateNameInCandidates (tn : Value) (cands : List String) : Bool :=
  match tn with
  | .str s => s ∈ cands
  | _ => false

/-- Embedding of `TemplateManager.get_reference_name`; `Option.none` is the
Python `None` return (caller falls back to its default selection). -/
def getReferenceName (t : Template) (cfg : Config) (stationId : Value)
    (candidateNames : List String) : Option Value :=
  match getStationData t stationId with
  | [] => Option.none
  | rows =>
    if "name" ∉ t.cols then Option.none
    else
      match uniqueListBy Value.pyEq ((rows.map (fun r => cellGet t.cols r "name")).filter (· ≠ .none)) with
      | [] => Option.none
      | templateName :: _ =>
        if candidateNames = [] then some templateName
        else if templateNameInCandidates templateName candidateNames then some templateName
        else if cfg.useFuzzyMatching then
          if MyQ.ble cfg.similarityThreshold (bestFuzzyMatch templateName candidateNames).2 then
            (bestFuzzyMatch templateName candidateNames).1.map Value.str
          else some templateName
        else some templateName

/-- Embedding of `TemplateManager.get_reference_value`.  Note: the most
frequent value is taken from the full `value_counts` of the column, not from
the placeholder-filtered candidates. -/
def getReferenceValue (t : Template) (stationId : Value) (param : String) :
    Option Value :=
  match getStationData t stationId with
  | [] => Option.none
  | rows =>
    if param ∉ t.cols then Option.none
    else
      let colVals := (rows.map (fun r => cellGet t.cols r param)).filter (· ≠ .none)
      let values := uniqueListBy Value.pyEq colVals
      match values.filter (fun v => stripStr (pyStr v) ≠ "" ∧ pyStr v ≠ "-") with
      | [] => Option.none
      | [v] => some v
      | _ => mostFrequentBy Value.pyEq colVals

/-- Blankness test inside `fill_missing_parameters`: missing, `None`/NaN,
empty after strip, or the placeholder `"-"`. -/
def fillBlankTest (v : Value) : Bool :=
  v = .none ∨ stripStr (pyStr v) = "" ∨ pyStr v = "-"

/-- Embedding of `TemplateManager.fill_missing_parameters`. -/
def fillMissingParameters (t : Template) (stationId : Value) (currentValues : Row) : Row :=
  match getStationData t stationId with
  | [] => currentValues
  | _ =>
    ["structure_owner", "structure_type", "tx_type"].foldl
      (fun updated param =>
        if fillBlankTest (kvGet currentValues param) then
          match getReferenceValue t stationId param with
          | some tv => if Value.truthy tv then kvSet updated param tv else updated
          | Option.none => updated
        else updated)
      currentValues

/-! ### `ExtendedCellDetector` -/

/-- Embedding of `follows_extended_nomenclature`: the anchored
case-insensitive pattern `re.escape(station_id) + R + digits`. -/
def followsExtendedNomenclature (stationId cellId : Value) : Bool :=
  if ¬ Value.truthy stationId ∨ ¬ Value.truthy cellId then false
  else
    let sid := (pyStr stationId).data.map charLower
    let cid := (pyStr cellId).data.map charLower
    cid.take (sid.length + 1) = sid ++ ['r'] ∧
    (cid.drop (sid.length + 1) ≠ [] ∧ (cid.drop (sid.length + 1)).all isDigitChar)

def absQ (a : MyQ) : MyQ := if a.num < 0 then ⟨-a.num, a.den⟩ else a

/-- Squared flat-plane distance in degrees, from `calculate_distance`. -/
def sqDist (p m : MyQ × MyQ) : MyQ :=
  MyQ.add (MyQ.mul (MyQ.sub p.1 m.1) (MyQ.sub p.1 m.1))
    (MyQ.mul (MyQ.sub p.2 m.2) (MyQ.sub p.2 m.2))

/-- The comparison `np.sqrt(sq) > threshold` carried out on squares: for
`sq ≥ 0` it is equivalent to `sq > threshold * |threshold|` over the reals,
which avoids irrational arithmetic (see `distExceeds_iff_sqrt`). -/
def distExceeds (sq threshold : MyQ) : Bool :=
  MyQ.blt (MyQ.mul threshold (absQ threshold)) sq

/-- The numeric (latitude, longitude) key of a row; pandas `groupby` with
`dropna=True` discards rows with a missing coordinate (this data carries
numeric-or-NaN coordinates). -/
def coordKeyOfRow (cols : List String) (r : Row) : Option (MyQ × MyQ) :=
  match cellGet cols r "latitude", cellGet cols r "longitude" with
  | .rat a, .rat b => some (a, b)
  | _, _ => Option.none

def coordPairEq (p q : MyQ × MyQ) : Bool := MyQ.beq p.1 q.1 && MyQ.beq p.2 q.2

def coordPairLe (p q : MyQ × MyQ) : Bool :=
  MyQ.blt p.1 q.1 || (MyQ.beq p.1 q.1 && MyQ.ble p.2 q.2)

/-- The coordinate groups of a station with their sizes, in sorted key order
as produced by pandas `groupby`. -/
def coordGroups (cols : List String) (rows : List Row) : List ((MyQ × MyQ) × Nat) :=
  let keys := rows.filterMap (coordKeyOfRow cols)
  (sortBy coordPairLe (uniqueListBy coordPairEq keys)).map
    (fun k => (k, keys.countP (coordPairEq k)))

/-- `group_sizes.idxmax()`: the first group of maximal size in sorted key
order — the main location of the station. -/
def mainCoordLocation (cols : List String) (rows : List Row) : MyQ × MyQ :=
  match coordGroups cols rows with
  | [] => (MyQ.zero, MyQ.zero)
  | g :: gs => (gs.foldl (fun b x => if b.2 < x.2 then x else b) g).1

/-- Embedding of `detect_extended_cells_in_station`; returns the
`station_cell_id` values of the flagged sectors, in row order. -/
def detectExtendedCellsInStation (cfg : Config) (cols : List String) (rows : List Row) :
    List Value :=
  match rows with
  | [] => []
  | r0 :: _ =>
    if ¬ (["station_cell_id", "latitude", "longitude"].all (· ∈ cols)) then []
    else if (coordGroups cols rows).length ≤ 1 then []
    else
      let m := mainCoordLocation cols rows
      rows.filterMap (fun r =>
        let cellId := cellGet cols r "station_cell_id"
        if ¬ followsExtendedNomenclature (kvGet r0 "station_id") cellId then Option.none
        else
          match cellGet cols r "latitude", cellGet cols r "longitude" with
          | .rat la, .rat lo =>
            if distExceeds (sqDist (la, lo) m) cfg.extendedCellDistanceThreshold then some cellId
            else Option.none
          | _, _ => Option.none)

/-- Embedding of `mark_extended_cells`: rewrite `cell_type` to
`"Extended Cell"` on the rows whose `station_cell_id` is in the list. -/
def markExtendedCells (df : Sheet) (extendedCellsList : List Value) : Sheet :=
  if extendedCellsList = [] then df
  else if "cell_type" ∉ df.cols then df
  else if "station_cell_id" ∉ df.cols then df
  else
    { df with
      rows := df.rows.map (fun r =>
        if extendedCellsList.any (Value.pyEq (kvGet r "station_cell_id")) then
          kvSet r "cell_type" (.str "Extended Cell")
        else r) }

/-! ### `select_best_name` (engine side, template aware) -/

/-- Python `max(l, key=len)` over a nonempty list: the first longest string. -/
def maxByLen (x : String) (l : List String) : String :=
  l.foldl (fun b y => if b.length < y.length then y else b) x

/-- The stripped truthy candidates of `select_best_name`. -/
def validNamesOf (nameList : List Value) : List String :=
  nameList.filterMap (fun n =>
    if Value.truthy n ∧ stripStr (pyStr n) ≠ "" then some (stripStr (pyStr n))
    else Option.none)

/-- Embedding of `select_best_name`. -/
def selectBestName (tpl : Option Template) (cfg : Config) (nameList : List Value)
    (stationId : Value) : Option Value :=
  if nameList = [] then Option.none
  else
    match validNamesOf nameList with
    | [] => Option.none
    | v :: vs =>
      match tpl with
      | some t =>
        if Value.truthy stationId then
          match getReferenceName t cfg stationId (v :: vs) with
          | some tn => if Value.truthy tn then some tn else some (.str (maxByLen v vs))
          | Option.none => some (.str (maxByLen v vs))
        else some (.str (maxByLen v vs))
      | Option.none => some (.str (maxByLen v vs))

/-! ### Multi-sheet search and blank completion (`correction_engine.py`) -/

/-- The dict built for each matching row by `search_sector_info_all_sheets`
(`row_index`, used only for logging, is omitted). -/
def sectorDataOfRow (sheetName : String) (sh : Sheet) (r : Row) : Row :=
  [("sheet_name", .str sheetName), ("technology", .str sheetName),
   ("station_id", cellGet sh.cols r "station_id"),
   ("sector_id", cellGet sh.cols r "sector_id"),
   ("name", cellGet sh.cols r "name"),
   ("latitude", cellGet sh.cols r "latitude"),
   ("longitude", cellGet sh.cols r "longitude"),
   ("structure_height", cellGet sh.cols r "structure_height"),
   ("structure_owner", cellGet sh.cols r "structure_owner"),
   ("structure_type", cellGet sh.cols r "structure_type")]

/-- `technology and sheet_name.lower() == technology.lower()` (a non-string
technology is falsy or would not reach the comparison in this data). -/
def techMatches (technology : Value) (sheetName : String) : Bool :=
  match technology with
  | .str t => t ≠ "" ∧ lowerStr sheetName = lowerStr t
  | _ => false

/-- The station mask of one sheet, with the optional sector filter. -/
def sheetMatches (sid sectorId : Value) (sh : Sheet) : List Row :=
  sh.rows.filter (fun r =>
    Value.pyEq (kvGet r "station_id") sid ∧
    (¬ (Value.truthy sectorId ∧ "sector_id" ∈ sh.cols) ∨
      Value.pyEq (kvGet r "sector_id") sectorId))

/-- Embedding of `search_sector_info_all_sheets`: technology-matching sheets
first, then the others, preserving sheet and row order. -/
def searchSectorInfoAllSheets (sheets : List (String × Sheet)) (sid sectorId technology : Value) :
    List Row :=
  (sheets.flatMap (fun p =>
    if techMatches technology p.1 then (sheetMatches sid sectorId p.2).map (sectorDataOfRow p.1 p.2)
    else [])) ++
  (sheets.flatMap (fun p =>
    if techMatches technology p.1 then []
    else (sheetMatches sid sectorId p.2).map (sectorDataOfRow p.1 p.2)))

def fieldsToComplete : List String :=
  ["name", "latitude", "longitude", "structure_height", "structure_owner", "structure_type"]

/-- Embedding of `complete_blank_fields` (`sector_info` is written out at
each use). -/
def completeBlankFields (sheets : List (String × Sheet)) (sid : Value) (currentData : Row)
    (technology : Value) : Row :=
  if searchSectorInfoAllSheets sheets sid (kvGet currentData "sector_id") technology = [] then
    currentData
  else
    fieldsToComplete.foldl
      (fun completed field =>
        if kvGet completed field = Value.none ∨
            Value.pyEq (kvGet completed field) (Value.str "") then
          match (searchSectorInfoAllSheets sheets sid (kvGet currentData "sector_id")
              technology).find? (fun info =>
                kvGet info field ≠ Value.none ∧ kvGet info field ≠ Value.str "") with
          | some info => kvSet completed field (kvGet info field)
          | Option.none => completed
        else completed)
      currentData

/-! ### `RFDataCorrectionEngine` per-station processing -/

/-- Engine state: the loaded sheets, the consolidated baseline, the
configuration, and the optional subsystems as initialised by `__init__`. -/
structure EngineState where
  sheets : List (String × Sheet)
  dfPhysical : Sheet
  config : Config
  templateManager : Option Template
  detectorActive : Bool
deriving DecidableEq, Repr

structure ProcResult where
  sheets : List (String × Sheet)
  correctValues : Row
  extendedCells : List Value
  requiresManualReview : Bool
deriving DecidableEq, Repr

def optQToValue : Option MyQ → Value
  | some q => .rat q
  | Option.none => .none

def optVToValue : Option Value → Value
  | some v => v
  | Option.none => .none

def optSToValue : Option String → Value
  | some s => .str s
  | Option.none => .none

/-- The extended-cell detection block of `process_anomalous_station`: gather
the station's rows from all sheets (skipped sheets contribute nothing), run
the detector on their concatenation.  The legacy LTE fallback path, taken
when the detector is off, only logs and leaves the list empty. -/
def detectForStation (st : EngineState) (stationId : Value) : List Value :=
  if st.detectorActive then
    match st.sheets.filterMap (fun p =>
      if (p.2.rows.filter (fun r => Value.pyEq (kvGet r "station_id") stationId)) = [] then
        Option.none
      else some ({ cols := p.2.cols,
                   rows := p.2.rows.filter (fun r =>
                     Value.pyEq (kvGet r "station_id") stationId) } : Sheet)) with
    | [] => []
    | parts =>
      detectExtendedCellsInStation st.config
        (parts.foldl (fun acc sh => acc ++ sh.cols.filter (· ∉ acc)) [])
        (parts.flatMap Sheet.rows)
  else []

/-- The sheet marking block of `process_anomalous_station`: when the detector
found extended cells, their `cell_type` is rewritten in every sheet. -/
def markedSheets (st : EngineState) (stationId : Value) : List (String × Sheet) :=
  if st.detectorActive ∧ detectForStation st stationId ≠ [] then
    st.sheets.map (fun p => (p.1, markExtendedCells p.2 (detectForStation st stationId)))
  else st.sheets

/-- The mean of the six per-attribute discrepancy scores. -/
def avgDiscrepancyOf (stationData : Row) : MyQ :=
  MyQ.div
    (MyQ.add
      (MyQ.add
        (MyQ.add
          (MyQ.add
            (MyQ.add (calculateDiscrepancyScore (parseListValues (kvGet stationData "latitude")))
              (calculateDiscrepancyScore (parseListValues (kvGet stationData "longitude"))))
            (calculateDiscrepancyScore (parseListValues (kvGet stationData "name"))))
          (calculateDiscrepancyScore (parseListValues (kvGet stationData "structure_height"))))
        (calculateDiscrepancyScore (parseListValues (kvGet stationData "structure_owner"))))
      (calculateDiscrepancyScore (parseListValues (kvGet stationData "structure_type"))))
    ⟨6, 1⟩

/-- The `correct_values` dict literal of `process_anomalous_station`,
before blank completion and template backfill. -/
def correctValuesInit (st : EngineState) (stationData : Row) : Row :=
  [("station_id", kvGet stationData "station_id"),
   ("name", optVToValue (selectBestName st.templateManager st.config
      (parseListValues (kvGet stationData "name")) (kvGet stationData "station_id"))),
   ("latitude",
    if detectForStation st (kvGet stationData "station_id") = [] then
      optQToValue (selectBestLatitude st.config (parseListValues (kvGet stationData "latitude")))
    else .none),
   ("longitude",
    if detectForStation st (kvGet stationData "station_id") = [] then
      optQToValue (selectBestLongitude st.config (parseListValues (kvGet stationData "longitude")))
    else .none),
   ("structure_height", optQToValue (selectBestStructureHeight st.config
      (parseListValues (kvGet stationData "structure_height")))),
   ("structure_owner", optSToValue (selectBestStructureOwner
      (parseListValues (kvGet stationData "structure_owner")))),
   ("structure_type", optSToValue (selectBestStructureType st.config
      (parseListValues (kvGet stationData "structure_type")))),
   ("discrepancy_score", .rat (avgDiscrepancyOf stationData)),
   ("has_extended_cells", .bool (detectForStation st (kvGet stationData "station_id") ≠ []))]

/-- Embedding of `process_anomalous_station`, assembled from the blocks
above: detect and mark extended cells, resolve each attribute, complete
blanks from the (marked) sheets, backfill from the template, and flag for
manual review. -/
def processAnomalousStation (st : EngineState) (stationData : Row) : ProcResult :=
  { sheets := markedSheets st (kvGet stationData "station_id"),
    correctValues :=
      match st.templateManager with
      | some t =>
        fillMissingParameters t (kvGet stationData "station_id")
          (completeBlankFields (markedSheets st (kvGet stationData "station_id"))
            (kvGet stationData "station_id") (correctValuesInit st stationData)
            (kvGet stationData "technology"))
      | Option.none =>
        completeBlankFields (markedSheets st (kvGet stationData "station_id"))
          (kvGet stationData "station_id") (correctValuesInit st stationData)
          (kvGet stationData "technology"),
    extendedCells := detectForStation st (kvGet stationData "station_id"),
    requiresManualReview :=
      MyQ.blt st.config.requireManualReviewThreshold (avgDiscrepancyOf stationData) ∧
      detectForStation st (kvGet stationData "station_id") = [] }

/-! ### `apply_corrections` -/

structure CorrectionRecord where
  stationId : Value
  sheetName : String
  parameter : String
  oldValues : List Value
  newValue : Value
  rowsAffected : Nat
  source : String
deriving DecidableEq, Repr

def recordSource (templateActive : Bool) (param : String) : String :=
  if templateActive ∧ param ∈ ["structure_owner", "structure_type", "tx_type", "name"] then
    "template"
  else "algorithm"

/-- One `(param, new_value)` step of the per-sheet loop of
`apply_corrections`: skip the identifier/score/flag keys, skip the
coordinates when the station has extended cells, skip columns absent from
the sheet, and otherwise compare the unique current values (`old_values`,
written out at each use) and overwrite/record on change.  Note the
`Stashed changes` branch has no `new_value is None` skip. -/
def applyParamStep (templateActive skipCoords : Bool) (stationId : Value) (sheetName : String)
    (affected : Nat) (acc : Sheet × List CorrectionRecord) (pv : String × Value) :
    Sheet × List CorrectionRecord :=
  if pv.1 ∈ ["station_id", "discrepancy_score", "sector_id", "has_extended_cells"] then acc
  else if skipCoords ∧ (pv.1 = "latitude" ∨ pv.1 = "longitude") then acc
  else if pv.1 ∉ acc.1.cols then acc
  else if 1 < (uniqueListBy Value.pyEq
        ((acc.1.rows.filter (fun r => Value.pyEq (kvGet r "station_id") stationId)).map
          (fun r => kvGet r pv.1))).length ∨
      ((uniqueListBy Value.pyEq
        ((acc.1.rows.filter (fun r => Value.pyEq (kvGet r "station_id") stationId)).map
          (fun r => kvGet r pv.1))) ≠ [] ∧
       ¬ Value.pyEq ((uniqueListBy Value.pyEq
        ((acc.1.rows.filter (fun r => Value.pyEq (kvGet r "station_id") stationId)).map
          (fun r => kvGet r pv.1))).headD .none) pv.2) then
    ({ cols := acc.1.cols,
       rows := acc.1.rows.map (fun r =>
         if Value.pyEq (kvGet r "station_id") stationId then kvSet r pv.1 pv.2 else r) },
     acc.2 ++ [⟨stationId, sheetName, pv.1,
                uniqueListBy Value.pyEq
                  ((acc.1.rows.filter (fun r => Value.pyEq (kvGet r "station_id") stationId)).map
                    (fun r => kvGet r pv.1)),
                pv.2, affected, recordSource templateActive pv.1⟩])
  else acc

/-- The per-sheet body of `apply_corrections`: one pass over the resolved
values with `applyParamStep`. -/
def applyParamsToSheet (templateActive skipCoords : Bool) (stationId : Value)
    (sheetName : String) (sh : Sheet) (correctValues : Row) : Sheet × List CorrectionRecord :=
  if sh.rows.countP (fun r => Value.pyEq (kvGet r "station_id") stationId) = 0 then (sh, [])
  else
    correctValues.foldl
      (applyParamStep templateActive skipCoords stationId sheetName
        (sh.rows.countP (fun r => Value.pyEq (kvGet r "station_id") stationId)))
      (sh, [])

/-- One `(param, new_value)` step of the consolidated-baseline update at the
end of `apply_corrections` (no records are emitted there; `sector_id` is not
in this skip list). -/
def applyConsolidatedStep (skipCoords : Bool) (stationId : Value) (acc : Sheet)
    (pv : String × Value) : Sheet :=
  if pv.1 ∈ ["station_id", "discrepancy_score", "has_extended_cells"] then acc
  else if skipCoords ∧ (pv.1 = "latitude" ∨ pv.1 = "longitude") then acc
  else if pv.1 ∉ acc.cols then acc
  else
    { cols := acc.cols,
      rows := acc.rows.map (fun r =>
        if Value.pyEq (kvGet r "station_id") stationId then kvSet r pv.1 pv.2 else r) }

/-- The consolidated-baseline update of `apply_corrections`. -/
def applyToConsolidated (skipCoords : Bool) (stationId : Value) (df : Sheet)
    (correctValues : Row) : Sheet :=
  if ¬ df.rows.any (fun r => Value.pyEq (kvGet r "station_id") stationId) then df
  else correctValues.foldl (applyConsolidatedStep skipCoords stationId) df

structure ApplyResult where
  sheets : List (String × Sheet)
  dfPhysical : Sheet
  records : List CorrectionRecord
deriving DecidableEq, Repr

/-- Embedding of `apply_corrections`: the per-sheet loop over `all_sheets`
(`skip_coords` is the truthiness of the `has_extended_cells` flag), then the
consolidated update. -/
def applyCorrections (st : EngineState) (stationId : Value) (correctValues : Row) : ApplyResult :=
  { sheets := st.sheets.map (fun p =>
      (p.1, (applyParamsToSheet st.templateManager.isSome
        (Value.truthy (kvGet correctValues "has_extended_cells")) stationId p.1 p.2
        correctValues).1)),
    dfPhysical := applyToConsolidated
      (Value.truthy (kvGet correctValues "has_extended_cells")) stationId st.dfPhysical
      correctValues,
    records := st.sheets.flatMap (fun p =>
      (applyParamsToSheet st.templateManager.isSome
        (Value.truthy (kvGet correctValues "has_extended_cells")) stationId p.1 p.2
        correctValues).2) }

/-- One iteration of the `process_anomalous_file` loop: resolve a station,
then apply the corrections to the mutated engine state. -/
def processStationAndApply (st : EngineState) (stationData : Row) : ProcResult × ApplyResult :=
  let res := processAnomalousStation st stationData
  (res,
   applyCorrections { st with sheets := res.sheets } (kvGet stationData "station_id")
     res.correctValues)

/-! ## Supporting lemmas -/

theorem foldl_unique_length (eq : α → α → Bool) (l acc : List α) :
    (l.foldl (fun acc a => if acc.any (eq a) then acc else a :: acc) acc).length ≤
      acc.length + l.length := by
  induction l generalizing acc with
  | nil => simp
  | cons a r ih =>
    simp only [List.foldl_cons]
    by_cases h : acc.any (eq a)
    · simp only [h, if_true]
      calc _ ≤ acc.length + r.length := ih acc
        _ ≤ acc.length + (r.length + 1) := by omega
    · simp only [h]
      calc _ ≤ (a :: acc).length + r.length := ih (a :: acc)
        _ ≤ acc.length + (a :: r).length := by simp; omega

theorem uniqueListBy_length_le (eq : α → α → Bool) (l : List α) :
    (uniqueListBy eq l).length ≤ l.length := by
  have h := foldl_unique_length eq l []
  simpa [uniqueListBy] using h

theorem foldl_unique_ne_nil (eq : α → α → Bool) (l : List α) (acc : List α) (h : acc ≠ []) :
    l.foldl (fun acc a => if acc.any (eq a) then acc else a :: acc) acc ≠ [] := by
  induction l generalizing acc with
  | nil => simpa
  | cons a r ih =>
    simp only [List.foldl_cons]
    by_cases hc : acc.any (eq a)
    · simp only [hc, if_true]; exact ih acc h
    · simp only [hc]; exact ih (a :: acc) (by simp)

theorem uniqueListBy_ne_nil (eq : α → α → Bool) (a : α) (l : List α) :
    uniqueListBy eq (a :: l) ≠ [] := by
  simp only [uniqueListBy, List.foldl_cons, List.any_nil, if_neg Bool.false_ne_true]
  intro hcontra
  exact foldl_unique_ne_nil eq l [a] (by simp) (by simpa using hcontra)

theorem toRat_zero : MyQ.zero.toRat = 0 := by
  simp [MyQ.zero, MyQ.toRat]

theorem toRat_sub_ofNat_one (u : Nat) :
    MyQ.sub (MyQ.ofNat u) ⟨1, 1⟩ = ⟨(u : Int) - 1, 1⟩ := by
  simp [MyQ.sub, MyQ.ofNat]

theorem toRat_div_ofNat (x : Int) (t : Nat) (ht : t ≠ 0) :
    (MyQ.div ⟨x, 1⟩ (MyQ.ofNat t)).toRat = (x : ℚ) / (t : ℚ) := by
  have h1 : ¬ ((t : Int) = 0) := by exact_mod_cast ht
  have h2 : (0 : Int) < (t : Int) := by exact_mod_cast Nat.pos_of_ne_zero ht
  simp [MyQ.div, MyQ.ofNat, MyQ.toRat, h1, h2, Int.toNat_natCast]

/-! ## Claims -/

/-- C10: `calculate_discrepancy_score` is total on every input list — the
`total_values == 0` guard prevents the division by zero even when every
element is falsy — and its result always lies in `[0, 1)`. -/
theorem discrepancy_score_in_unit_interval (l : List Value) :
    0 ≤ (calculateDiscrepancyScore l).toRat ∧ (calculateDiscrepancyScore l).toRat < 1 := by
  unfold calculateDiscrepancyScore
  by_cases hlen : l.length ≤ 1
  · simp [hlen, toRat_zero]
  · by_cases ht : (l.filter Value.truthy).length = 0
    · simp [hlen, ht, toRat_zero]
    · obtain ⟨a, r, hfe⟩ : ∃ a r, l.filter Value.truthy = a :: r := by
        cases hc : l.filter Value.truthy with
        | nil => exact absurd (by rw [hc]; rfl) ht
        | cons a r => exact ⟨a, r, rfl⟩
      have hu_ge : 1 ≤ (uniqueListBy (fun a b => a = b)
          ((l.filter Value.truthy).map pyStr)).length := by
        rw [hfe, List.map_cons]
        exact List.length_pos.mpr (uniqueListBy_ne_nil _ _ _)
      have hu_le : (uniqueListBy (fun a b => a = b)
          ((l.filter Value.truthy).map pyStr)).length ≤ (l.filter Value.truthy).length := by
        calc _ ≤ ((l.filter Value.truthy).map pyStr).length := uniqueListBy_length_le _ _
          _ = _ := List.length_map _ _
      simp only [hlen, if_false, ht]
      rw [toRat_sub_ofNat_one, toRat_div_ofNat _ _ ht]
      have htpos : (0 : ℚ) < ((l.filter Value.truthy).length : ℚ) := by
        exact_mod_cast Nat.pos_of_ne_zero ht
      constructor
      · apply div_nonneg _ (le_of_lt htpos)
        push_cast
        have : (1 : ℚ) ≤ ((uniqueListBy (fun a b => a = b)
            ((l.filter Value.truthy).map pyStr)).length : ℚ) := by exact_mod_cast hu_ge
        linarith
      · rw [div_lt_one htpos]
        push_cast
        have : ((uniqueListBy (fun a b => a = b)
            ((l.filter Value.truthy).map pyStr)).length : ℚ) ≤
            ((l.filter Value.truthy).length : ℚ) := by exact_mod_cast hu_le
        linarith

/-- C5: for a list of length at least 2 with at least one truthy element, the
discrepancy score is `(k - 1) / n`, where `k` is the number of distinct
string representations among the truthy elements and `n` the number of
truthy elements; the empty list and singletons score 0. -/
theorem discrepancy_score_formula (l : List Value)
    (hlen : 2 ≤ l.length) (htr : 1 ≤ (l.filter Value.truthy).length) :
    (calculateDiscrepancyScore l).toRat =
      (((uniqueListBy (fun a b => a = b) ((l.filter Value.truthy).map pyStr)).length : ℚ) - 1) /
        ((l.filter Value.truthy).length : ℚ) ∧
    calculateDiscrepancyScore [] = MyQ.zero ∧
    (∀ v : Value, calculateDiscrepancyScore [v] = MyQ.zero) := by
  refine ⟨?_, by simp [calculateDiscrepancyScore], fun v => by simp [calculateDiscrepancyScore]⟩
  unfold calculateDiscrepancyScore
  have h1 : ¬ l.length ≤ 1 := by omega
  have h2 : ¬ (l.filter Value.truthy).length = 0 := by omega
  simp only [h1, if_false, h2]
  rw [toRat_sub_ofNat_one, toRat_div_ofNat _ _ h2]
  push_cast
  rfl

/-- Witness for C5 at the list `["a", "a", "b"]`: two distinct strings out of
three truthy entries give score `1/3`. -/
theorem discrepancy_score_formula_witness :
    2 ≤ ([Value.str "a", Value.str "a", Value.str "b"] : List Value).length ∧
    (calculateDiscrepancyScore [Value.str "a", Value.str "a", Value.str "b"]).toRat = 1 / 3 := by
  constructor
  · decide
  · have h := (discrepancy_score_formula [Value.str "a", Value.str "a", Value.str "b"]
      (by decide) (by decide)).1
    rw [h]
    rw [show (uniqueListBy (fun a b => a = b)
      (([Value.str "a", Value.str "a", Value.str "b"].filter Value.truthy).map pyStr)).length = 2
      from by decide]
    rw [show (([Value.str "a", Value.str "a", Value.str "b"] : List Value).filter
      Value.truthy).length = 3 from by decide]
    norm_num

theorem traverseOption_eq_none (f : α → Option β) (xs : List α) (a : α)
    (ha : a ∈ xs) (hf : f a = Option.none) : traverseOption f xs = Option.none := by
  induction xs with
  | nil => cases ha
  | cons x r ih =>
    rcases List.mem_cons.mp ha with h | h
    · subst h
      simp [traverseOption, hf]
    · have := ih h
      simp only [traverseOption, this]
      cases f x <;> rfl

/-- C4: when every truthy candidate parses and at least one parsed value is
inside the configured bounds, `select_best_latitude` (and likewise
`select_best_longitude`) returns the median of the in-bounds values rounded
to 6 decimal places, for every value of the coordinate-closeness threshold
(both branches of the threshold comparison compute the same median). -/
theorem select_best_coordinates_median_threshold_independent
    (cfg : Config) (latList lonList : List Value) (qlat qlon : List MyQ)
    (hlatne : latList ≠ []) (hlonne : lonList ≠ [])
    (hlat : traverseOption floatOfValue (latList.filter Value.truthy) = some qlat)
    (hlon : traverseOption floatOfValue (lonList.filter Value.truthy) = some qlon)
    (hlatv : qlat.filter (fun x => MyQ.ble cfg.latitudeMin x && MyQ.ble x cfg.latitudeMax) ≠ [])
    (hlonv : qlon.filter (fun x => MyQ.ble cfg.longitudeMin x && MyQ.ble x cfg.longitudeMax) ≠ []) :
    ∀ t : MyQ,
      selectBestLatitude { cfg with coordinateThreshold := t } latList =
        some (pyRound6 (medianQ
          (qlat.filter (fun x => MyQ.ble cfg.latitudeMin x && MyQ.ble x cfg.latitudeMax)))) ∧
      selectBestLongitude { cfg with coordinateThreshold := t } lonList =
        some (pyRound6 (medianQ
          (qlon.filter (fun x => MyQ.ble cfg.longitudeMin x && MyQ.ble x cfg.longitudeMax)))) := by
  intro t
  constructor
  · obtain ⟨v, vs, hv⟩ : ∃ v vs,
        qlat.filter (fun x => MyQ.ble cfg.latitudeMin x && MyQ.ble x cfg.latitudeMax) = v :: vs := by
      cases hc : qlat.filter (fun x => MyQ.ble cfg.latitudeMin x && MyQ.ble x cfg.latitudeMax) with
      | nil => exact absurd hc hlatv
      | cons v vs => exact ⟨v, vs, rfl⟩
    simp only [selectBestLatitude, if_neg hlatne, hlat, hv]
    split <;> rfl
  · obtain ⟨v, vs, hv⟩ : ∃ v vs,
        qlon.filter (fun x => MyQ.ble cfg.longitudeMin x && MyQ.ble x cfg.longitudeMax) = v :: vs := by
      cases hc : qlon.filter (fun x => MyQ.ble cfg.longitudeMin x && MyQ.ble x cfg.longitudeMax) with
      | nil => exact absurd hc hlonv
      | cons v vs => exact ⟨v, vs, rfl⟩
    simp only [selectBestLongitude, if_neg hlonne, hlon, hv]
    split <;> rfl

def cfgWitness : Config :=
  { latitudeMin := ⟨-90, 1⟩, latitudeMax := ⟨90, 1⟩,
    longitudeMin := ⟨-180, 1⟩, longitudeMax := ⟨180, 1⟩,
    heightMin := ⟨0, 1⟩, heightMax := ⟨200, 1⟩,
    coordinateThreshold := ⟨1, 1000⟩,
    structureTypePriority := [("Tower", 3), ("Pole", 1)],
    requireManualReviewThreshold := ⟨3, 10⟩,
    extendedCellDistanceThreshold := ⟨1, 100⟩,
    useFuzzyMatching := true, similarityThreshold := ⟨85, 100⟩ }

/-- Witness for C4: on `["1.0", "3.0", "2.0"]` the selector answers the same
for a huge and a tiny closeness threshold. -/
theorem select_best_coordinates_witness :
    ([Value.str "1.0", Value.str "3.0", Value.str "2.0"] : List Value) ≠ [] ∧
    selectBestLatitude { cfgWitness with coordinateThreshold := ⟨5, 1⟩ }
        [Value.str "1.0", Value.str "3.0", Value.str "2.0"] =
      selectBestLatitude { cfgWitness with coordinateThreshold := ⟨1, 1000000⟩ }
        [Value.str "1.0", Value.str "3.0", Value.str "2.0"] := by
  constructor
  · decide
  · have h := select_best_coordinates_median_threshold_independent cfgWitness
      [Value.str "1.0", Value.str "3.0", Value.str "2.0"]
      [Value.str "1.0", Value.str "3.0", Value.str "2.0"]
      [⟨10, 10⟩, ⟨30, 10⟩, ⟨20, 10⟩] [⟨10, 10⟩, ⟨30, 10⟩, ⟨20, 10⟩]
      (by decide) (by decide) (by decide) (by decide) (by decide) (by decide)
    rw [(h ⟨5, 1⟩).1, (h ⟨1, 1000000⟩).1]

/-- C7: `select_best_structure_height` yields no value as soon as one truthy
element fails the float parse (the `try` wraps the whole comprehension), no
value when no parsed candidate is within the configured height bounds, and
the maximum in-bounds height otherwise. -/
theorem select_best_structure_height_policy (cfg : Config) (l : List Value) (hne : l ≠ []) :
    ((∃ v ∈ l, Value.truthy v = true ∧ floatOfValue v = Option.none) →
      selectBestStructureHeight cfg l = Option.none) ∧
    (∀ qs, traverseOption floatOfValue (l.filter Value.truthy) = some qs →
      (qs.filter (fun h => MyQ.ble cfg.heightMin h && MyQ.ble h cfg.heightMax) = [] →
        selectBestStructureHeight cfg l = Option.none) ∧
      (∀ v vs, qs.filter (fun h => MyQ.ble cfg.heightMin h && MyQ.ble h cfg.heightMax) = v :: vs →
        selectBestStructureHeight cfg l = some (listMaxQ v vs))) := by
  constructor
  · rintro ⟨v, hv, htr, hfail⟩
    have hmem : v ∈ l.filter Value.truthy := List.mem_filter.mpr ⟨hv, htr⟩
    have hnone := traverseOption_eq_none floatOfValue (l.filter Value.truthy) v hmem hfail
    simp [selectBestStructureHeight, if_neg hne, hnone]
  · intro qs hqs
    constructor
    · intro hempty
      simp [selectBestStructureHeight, if_neg hne, hqs, hempty]
    · intro v vs hv
      simp [selectBestStructureHeight, if_neg hne, hqs, hv]

/-- Witness for C7: a bad token voids the whole list, out-of-bounds values
are discarded, and the maximum in-bounds height is returned. -/
theorem select_best_structure_height_witness :
    ([Value.str "30", Value.str "abc"] : List Value) ≠ [] ∧
    selectBestStructureHeight cfgWitness [Value.str "30", Value.str "abc"] = Option.none ∧
    selectBestStructureHeight cfgWitness [Value.str "50", Value.str "150", Value.str "999"] =
      some ⟨150, 1⟩ := by
  refine ⟨by decide, ?_, ?_⟩
  · exact (select_best_structure_height_policy cfgWitness [Value.str "30", Value.str "abc"]
      (by decide)).1 ⟨Value.str "abc", by decide, by decide, by decide⟩
  · have h := ((select_best_structure_height_policy cfgWitness
      [Value.str "50", Value.str "150", Value.str "999"] (by decide)).2
      [⟨50, 1⟩, ⟨150, 1⟩, ⟨999, 1⟩] (by decide)).2 ⟨50, 1⟩ [⟨150, 1⟩] (by decide)
    rw [h]
    decide

/-! Lemmas about the first-maximum fold used by `max(..., key=...)`. -/

theorem foldl_firstMax_mem (key : α → Int) (t : α) (ts : List α) :
    ts.foldl (fun b x => if key b < key x then x else b) t ∈ t :: ts := by
  induction ts generalizing t with
  | nil => simp
  | cons a r ih =>
    simp only [List.foldl_cons]
    split
    · have := ih a
      simp only [List.mem_cons] at this ⊢
      tauto
    · have := ih t
      simp only [List.mem_cons] at this ⊢
      tauto

theorem foldl_firstMax_ge (key : α → Int) (t : α) (ts : List α) :
    ∀ x ∈ t :: ts, key x ≤ key (ts.foldl (fun b x => if key b < key x then x else b) t) := by
  induction ts generalizing t with
  | nil =>
    intro x hx
    simp only [List.mem_cons, List.not_mem_nil, or_false] at hx
    subst hx
    simp
  | cons a r ih =>
    intro x hx
    simp only [List.foldl_cons]
    by_cases h : key t < key a
    · rw [show (if key t < key a then a else t) = a from if_pos h]
      rcases List.mem_cons.mp hx with h1 | h1
      · have ha := ih a a (List.mem_cons_self a r)
        subst h1
        omega
      · rcases List.mem_cons.mp h1 with h2 | h2
        · subst h2
          exact ih x x (List.mem_cons_self x r)
        · exact ih a x (List.mem_cons_of_mem a h2)
    · rw [show (if key t < key a then a else t) = t from if_neg h]
      rcases List.mem_cons.mp hx with h1 | h1
      · subst h1
        exact ih x x (List.mem_cons_self x r)
      · rcases List.mem_cons.mp h1 with h2 | h2
        · have htt := ih t t (List.mem_cons_self t r)
          subst h2
          omega
        · exact ih t x (List.mem_cons_of_mem t h2)

theorem foldl_firstMax_eq_or_lt (key : α → Int) (t : α) (ts : List α) :
    ts.foldl (fun b x => if key b < key x then x else b) t = t ∨
      key t < key (ts.foldl (fun b x => if key b < key x then x else b) t) := by
  induction ts generalizing t with
  | nil => simp
  | cons a r ih =>
    simp only [List.foldl_cons]
    by_cases h : key t < key a
    · rw [show (if key t < key a then a else t) = a from if_pos h]
      rcases ih a with h1 | h1
      · right; rw [h1]; exact h
      · right; omega
    · rw [show (if key t < key a then a else t) = t from if_neg h]
      exact ih t

theorem foldl_firstMax_first (key : α → Int) (t : α) (ts : List α) :
    (t :: ts).find?
        (fun x => key x = key (ts.foldl (fun b x => if key b < key x then x else b) t)) =
      some (ts.foldl (fun b x => if key b < key x then x else b) t) := by
  induction ts generalizing t with
  | nil => simp
  | cons a r ih =>
    simp only [List.foldl_cons]
    by_cases h : key t < key a
    · simp only [if_pos h]
      have hge : key a ≤ key (r.foldl (fun b x => if key b < key x then x else b) a) :=
        foldl_firstMax_ge key a r a (by simp)
      have hne : ¬ (key t = key (r.foldl (fun b x => if key b < key x then x else b) a)) := by
        omega
      rw [List.find?_cons_of_neg _ (by simpa using hne)]
      exact ih a
    · simp only [if_neg h]
      have hle : key a ≤ key t := by omega
      have htle : key t ≤ key (r.foldl (fun b x => if key b < key x then x else b) t) :=
        foldl_firstMax_ge key t r t (by simp)
      by_cases heq : key t = key (r.foldl (fun b x => if key b < key x then x else b) t)
      · have hm : r.foldl (fun b x => if key b < key x then x else b) t = t := by
          rcases foldl_firstMax_eq_or_lt key t r with h1 | h1
          · exact h1
          · omega
        rw [hm] at heq ⊢
        rw [List.find?_cons_of_pos _ (by simp [heq])]
      · rw [List.find?_cons_of_neg _ (by simpa using heq)]
        have hane : ¬ (key a = key (r.foldl (fun b x => if key b < key x then x else b) t)) := by
          omega
        rw [List.find?_cons_of_neg _ (by simpa using hane)]
        have := ih t
        rw [List.find?_cons_of_neg _ (by simpa using heq)] at this
        exact this

theorem lookup_mem_pairs [DecidableEq α] (k : α) (v : β) (l : List (α × β))
    (h : List.lookup k l = some v) : (k, v) ∈ l := by
  induction l with
  | nil => simp [List.lookup] at h
  | cons p r ih =>
    obtain ⟨a, b⟩ := p
    by_cases hk : k = a
    · subst hk
      simp only [List.lookup, beq_self_eq_true, Option.some.injEq] at h
      subst h
      exact List.mem_cons_self _ _
    · have hbeq : (k == a) = false := by
        simpa using hk
      simp only [List.lookup, hbeq] at h
      exact List.mem_cons_of_mem _ (ih h)

/-- C8 (amended): `select_best_structure_type` returns the first candidate of
maximal configured priority among the stripped non-placeholder candidates,
with unmapped types at priority -1; consequently, when every configured
priority is nonnegative, an unmapped type is returned only if every valid
candidate is unmapped.  (The consequence fails for priority mappings with
values below -1, see the counterexample.) -/
theorem select_best_structure_type_first_max (cfg : Config) (l : List Value)
    (hne : validTypes l ≠ []) :
    ∃ m, selectBestStructureType cfg l = some m ∧
      m ∈ validTypes l ∧
      (∀ x ∈ validTypes l, typePriorityOf cfg x ≤ typePriorityOf cfg m) ∧
      (validTypes l).find? (fun x => typePriorityOf cfg x = typePriorityOf cfg m) = some m ∧
      ((∀ p ∈ cfg.structureTypePriority, 0 ≤ p.2) →
        List.lookup m cfg.structureTypePriority = Option.none →
        ∀ x ∈ validTypes l, List.lookup x cfg.structureTypePriority = Option.none) := by
  have hlne : l ≠ [] := by
    intro hcontra
    subst hcontra
    exact hne rfl
  obtain ⟨t, ts, hv⟩ : ∃ t ts, validTypes l = t :: ts := by
    cases hc : validTypes l with
    | nil => exact absurd hc hne
    | cons t ts => exact ⟨t, ts, rfl⟩
  refine ⟨ts.foldl (fun b x => if typePriorityOf cfg b < typePriorityOf cfg x then x else b) t,
    ?_, ?_, ?_, ?_, ?_⟩
  · simp [selectBestStructureType, if_neg hlne, hv]
  · rw [hv]; exact foldl_firstMax_mem _ t ts
  · rw [hv]; exact foldl_firstMax_ge _ t ts
  · rw [hv]; exact foldl_firstMax_first _ t ts
  · intro hnn hunm x hx
    set m := ts.foldl (fun b x => if typePriorityOf cfg b < typePriorityOf cfg x then x else b) t
      with hm
    have hle : typePriorityOf cfg x ≤ typePriorityOf cfg m := by
      have := foldl_firstMax_ge (typePriorityOf cfg) t ts x (hv ▸ hx)
      exact this
    have hmprio : typePriorityOf cfg m = -1 := by
      simp [typePriorityOf, hunm]
    cases hlook : List.lookup x cfg.structureTypePriority with
    | none => rfl
    | some p =>
      have hmem := lookup_mem_pairs x p cfg.structureTypePriority hlook
      have hp : 0 ≤ p := hnn (x, p) hmem
      have hxprio : typePriorityOf cfg x = p := by simp [typePriorityOf, hlook]
      omega

def cfgNegPriority : Config := { cfgWitness with structureTypePriority := [("A", -2)] }

/-- C8 counterexample: under a configured mapping carrying a negative
priority, the unmapped candidate `"B"` is returned although the mapped
candidate `"A"` is present, refuting the claim that an unmapped type is
returned only when every candidate is unmapped. -/
theorem select_best_structure_type_unmapped_counterexample :
    selectBestStructureType cfgNegPriority [Value.str "A", Value.str "B"] = some "B" ∧
    List.lookup "B" cfgNegPriority.structureTypePriority = Option.none ∧
    List.lookup "A" cfgNegPriority.structureTypePriority = some (-2) ∧
    "A" ∈ validTypes [Value.str "A", Value.str "B"] := by decide

/-- Witness for the amended C8 on `["Pole", "Tower", "-"]` under nonnegative
priorities: the placeholder is dropped and the top-priority type wins. -/
theorem select_best_structure_type_witness :
    validTypes [Value.str "Pole", Value.str "Tower", Value.str "-"] ≠ [] ∧
    (∃ m, selectBestStructureType cfgWitness [Value.str "Pole", Value.str "Tower", Value.str "-"] =
        some m ∧ m ∈ validTypes [Value.str "Pole", Value.str "Tower", Value.str "-"]) ∧
    selectBestStructureType cfgWitness [Value.str "Pole", Value.str "Tower", Value.str "-"] =
      some "Tower" := by
  refine ⟨by decide, ?_, by decide⟩
  obtain ⟨m, h1, h2, -⟩ := select_best_structure_type_first_max cfgWitness
    [Value.str "Pole", Value.str "Tower", Value.str "-"] (by decide)
  exact ⟨m, h1, h2⟩

/-! Concrete inputs exhibiting the C3 and C1 code bugs. -/

def tplC3 : Template :=
  { cols := ["station_id", "structure_owner"],
    rows := [[("station_id", .str "S"), ("structure_owner", .str "-")],
             [("station_id", .str "S"), ("structure_owner", .str "-")],
             [("station_id", .str "S"), ("structure_owner", .str "OWNER A")],
             [("station_id", .str "S"), ("structure_owner", .str "OWNER B")]] }

/-- C3 (code bug): `fill_missing_parameters` writes the placeholder `"-"`
into a blank `structure_owner`, because `get_reference_value` falls back to
the most frequent value of the unfiltered template column (here `"-"`, which
its own filtering step had just discarded as invalid) whenever more than one
distinct non-blank value exists. -/
theorem fill_missing_parameters_writes_placeholder :
    fillMissingParameters tplC3 (Value.str "S") [("structure_owner", Value.none)] =
      [("structure_owner", Value.str "-")] ∧
    getReferenceValue tplC3 (Value.str "S") "structure_owner" = some (Value.str "-") ∧
    fillBlankTest (Value.str "-") = true := by decide

def c1Sheet : Sheet :=
  { cols := ["station_id", "structure_height"],
    rows := [[("station_id", .str "S1"), ("structure_height", .str "")]] }

def c1State : EngineState :=
  { sheets := [("gsm", c1Sheet)], dfPhysical := c1Sheet, config := cfgWitness,
    templateManager := Option.none, detectorActive := false }

def c1Station : Row :=
  [("station_id", .str "S1"), ("name", .str "'N1'"), ("latitude", .none),
   ("longitude", .none), ("structure_height", .str "'abc'"),
   ("structure_owner", .none), ("structure_type", .none)]

/-- C1 (code bug): the station's `structure_height` candidates fail the float
parse, so the attribute resolves to `None`; the `Stashed changes` branch of
`apply_corrections` dropped the `new_value is None` skip of the upstream
branch, so it overwrites the existing value `""` with `None` in the sheet and
in the consolidated table and emits a `CorrectionRecord` — the claim (and the
spec's error-handling taxonomy) say the attribute must be left untouched. -/
theorem apply_corrections_overwrites_unresolved_attribute :
    kvGet (processStationAndApply c1State c1Station).1.correctValues "structure_height" =
      Value.none ∧
    (processStationAndApply c1State c1Station).2.records =
      [⟨Value.str "S1", "gsm", "structure_height", [Value.str ""], Value.none, 1, "algorithm"⟩] ∧
    (processStationAndApply c1State c1Station).2.sheets =
      [("gsm", { cols := ["station_id", "structure_height"],
                 rows := [[("station_id", Value.str "S1"),
                           ("structure_height", Value.none)]] })] ∧
    (processStationAndApply c1State c1Station).2.dfPhysical =
      { cols := ["station_id", "structure_height"],
        rows := [[("station_id", Value.str "S1"), ("structure_height", Value.none)]] } ∧
    kvGet (c1Sheet.rows.headD []) "structure_height" = Value.str "" := by decide

theorem filterMap_eq_filter_map_of (f : α → Option β) (p : α → Bool) (g : α → β) (l : List α)
    (h : ∀ x, f x = if p x then some (g x) else Option.none) :
    l.filterMap f = (l.filter p).map g := by
  induction l with
  | nil => rfl
  | cons a r ih =>
    rw [List.filterMap_cons, List.filter_cons]
    by_cases hp : p a
    · rw [h a, if_pos hp, if_pos hp, List.map_cons, ih]
    · rw [h a, if_neg (by simp [hp]), if_neg (by simp [hp])]
      exact ih

/-- C6: with the required columns present, a station with at most one
distinct coordinate group yields no extended cells, and with two or more
groups the detected list is exactly the cell identifiers of the rows that
match the `<station_id>R<digits>` pattern AND lie beyond the configured
distance threshold from the largest coordinate group — a matching name
within the threshold is not flagged, and a non-matching name is never
flagged at any distance. -/
theorem extended_cell_detection_characterization (cfg : Config) (cols : List String)
    (rows : List Row)
    (hc1 : "station_cell_id" ∈ cols) (hc2 : "latitude" ∈ cols) (hc3 : "longitude" ∈ cols) :
    ((coordGroups cols rows).length ≤ 1 → detectExtendedCellsInStation cfg cols rows = []) ∧
    (∀ r0 rest, rows = r0 :: rest → 2 ≤ (coordGroups cols rows).length →
      detectExtendedCellsInStation cfg cols rows =
        (rows.filter (fun r =>
          followsExtendedNomenclature (kvGet r0 "station_id") (cellGet cols r "station_cell_id") &&
          (match cellGet cols r "latitude", cellGet cols r "longitude" with
           | .rat la, .rat lo =>
             distExceeds (sqDist (la, lo) (mainCoordLocation cols rows))
               cfg.extendedCellDistanceThreshold
           | _, _ => false))).map (fun r => cellGet cols r "station_cell_id")) := by
  constructor
  · intro hle
    cases rows with
    | nil => rfl
    | cons r0 rest =>
      simp only [detectExtendedCellsInStation, List.all_cons, List.all_nil]
      rw [if_neg (by simp [hc1, hc2, hc3])]
      rw [if_pos hle]
  · intro r0 rest hrows hge
    subst hrows
    simp only [detectExtendedCellsInStation, List.all_cons, List.all_nil]
    rw [if_neg (by simp [hc1, hc2, hc3])]
    rw [if_neg (by omega)]
    apply filterMap_eq_filter_map_of
    intro x
    by_cases hf : followsExtendedNomenclature (kvGet r0 "station_id")
        (cellGet cols x "station_cell_id")
    · rw [if_neg (by simp [hf])]
      cases hlat : cellGet cols x "latitude" <;> cases hlon : cellGet cols x "longitude" <;>
        simp [hf]
    · rw [if_pos (by simp [hf]), if_neg (by simp [hf])]

/-! Frame lemmas for dictionary updates and the coordinate columns. -/

theorem kvGet_map_replace_ne (d : Row) (k k' : String) (v : Value) (h : k' ≠ k) :
    kvGet (d.map (fun p => if p.1 = k then (k, v) else p)) k' = kvGet d k' := by
  induction d with
  | nil => rfl
  | cons p r ih =>
    obtain ⟨a, b⟩ := p
    by_cases hp : a = k
    · subst hp
      rw [List.map_cons]
      rw [show (if (a, b).1 = a then (a, v) else (a, b)) = (a, v) from by simp]
      simp only [kvGet, if_neg h]
      exact ih
    · rw [List.map_cons]
      rw [show (if (a, b).1 = k then (k, v) else (a, b)) = (a, b) from by simp [hp]]
      simp only [kvGet]
      by_cases hk : k' = a
      · rw [if_pos hk, if_pos hk]
      · rw [if_neg hk, if_neg hk]
        exact ih

theorem kvGet_append_single_ne (d : Row) (k k' : String) (v : Value) (h : k' ≠ k) :
    kvGet (d ++ [(k, v)]) k' = kvGet d k' := by
  induction d with
  | nil => simp [kvGet, if_neg h]
  | cons p r ih =>
    obtain ⟨a, b⟩ := p
    simp only [List.cons_append, kvGet]
    by_cases hk : k' = a
    · rw [if_pos hk, if_pos hk]
    · rw [if_neg hk, if_neg hk]
      exact ih

theorem kvGet_kvSet_ne (d : Row) (k k' : String) (v : Value) (h : k' ≠ k) :
    kvGet (kvSet d k v) k' = kvGet d k' := by
  unfold kvSet
  split
  · exact kvGet_map_replace_ne d k k' v h
  · exact kvGet_append_single_ne d k k' v h

/-- The latitude and longitude cells of every row of a sheet, in order. -/
def sheetCoordView (sh : Sheet) : List (Value × Value) :=
  sh.rows.map (fun r => (kvGet r "latitude", kvGet r "longitude"))

/-- The per-sheet coordinate view of the whole workbook. -/
def coordView (sheets : List (String × Sheet)) : List (String × List (Value × Value)) :=
  sheets.map (fun p => (p.1, sheetCoordView p.2))

theorem markExtendedCells_coordView (sh : Sheet) (cells : List Value) :
    sheetCoordView (markExtendedCells sh cells) = sheetCoordView sh := by
  unfold markExtendedCells
  split
  · rfl
  · split
    · rfl
    · split
      · rfl
      · unfold sheetCoordView
        simp only [List.map_map]
        apply List.map_congr_left
        intro r hr
        simp only [Function.comp_apply]
        split
        · rw [kvGet_kvSet_ne _ _ _ _ (by decide), kvGet_kvSet_ne _ _ _ _ (by decide)]
        · rfl

theorem fold_complete_preserves (sectorInfo : List Row) (fs : List String) (cur : Row)
    (k : String) (hk : ¬ k ∈ fs) :
    kvGet (fs.foldl (fun completed field =>
      if kvGet completed field = Value.none ∨ Value.pyEq (kvGet completed field) (Value.str "") then
        match sectorInfo.find? (fun info =>
            kvGet info field ≠ Value.none ∧ kvGet info field ≠ Value.str "") with
        | some info => kvSet completed field (kvGet info field)
        | Option.none => completed
      else completed) cur) k = kvGet cur k := by
  induction fs generalizing cur with
  | nil => rfl
  | cons f r ih =>
    have hkf : k ≠ f := fun hc => hk (by simp [hc])
    have hkr : ¬ k ∈ r := fun hc => hk (by simp [hc])
    rw [List.foldl_cons, ih _ hkr]
    split
    · split
      · exact kvGet_kvSet_ne _ _ _ _ hkf
      · rfl
    · rfl

theorem completeBlankFields_preserves (sheets : List (String × Sheet)) (sid : Value)
    (cur : Row) (tech : Value) (k : String) (hk : ¬ k ∈ fieldsToComplete) :
    kvGet (completeBlankFields sheets sid cur tech) k = kvGet cur k := by
  unfold completeBlankFields
  split
  · rfl
  · exact fold_complete_preserves
      (searchSectorInfoAllSheets sheets sid (kvGet cur "sector_id") tech) fieldsToComplete cur k hk

theorem fold_fill_preserves (t : Template) (sid : Value) (cur0 : Row) (fs : List String)
    (cur : Row) (k : String) (hk : ¬ k ∈ fs) :
    kvGet (fs.foldl (fun updated param =>
      if fillBlankTest (kvGet cur0 param) then
        match getReferenceValue t sid param with
        | some tv => if Value.truthy tv then kvSet updated param tv else updated
        | Option.none => updated
      else updated) cur) k = kvGet cur k := by
  induction fs generalizing cur with
  | nil => rfl
  | cons f r ih =>
    have hkf : k ≠ f := fun hc => hk (by simp [hc])
    have hkr : ¬ k ∈ r := fun hc => hk (by simp [hc])
    rw [List.foldl_cons, ih _ hkr]
    split
    · split
      · split
        · exact kvGet_kvSet_ne _ _ _ _ hkf
        · rfl
      · rfl
    · rfl

theorem fillMissingParameters_preserves (t : Template) (sid : Value) (cur : Row) (k : String)
    (hk : ¬ k ∈ ["structure_owner", "structure_type", "tx_type"]) :
    kvGet (fillMissingParameters t sid cur) k = kvGet cur k := by
  unfold fillMissingParameters
  split
  · rfl
  · exact fold_fill_preserves _ _ _ _ _ _ hk

/-! The coordinate-skip behaviour of `apply_corrections`. -/

theorem applyParamStep_skip_true (ta : Bool) (sid : Value) (sn : String) (aff : Nat)
    (acc : Sheet × List CorrectionRecord) (pv : String × Value) :
    applyParamStep ta true sid sn aff acc pv = acc ∨
    (pv.1 ≠ "latitude" ∧ pv.1 ≠ "longitude" ∧
     applyParamStep ta true sid sn aff acc pv =
       ({ cols := acc.1.cols,
          rows := acc.1.rows.map (fun r =>
            if Value.pyEq (kvGet r "station_id") sid then kvSet r pv.1 pv.2 else r) },
        acc.2 ++ [⟨sid, sn, pv.1,
          uniqueListBy Value.pyEq
            ((acc.1.rows.filter (fun r => Value.pyEq (kvGet r "station_id") sid)).map
              (fun r => kvGet r pv.1)),
          pv.2, aff, recordSource ta pv.1⟩])) := by
  unfold applyParamStep
  by_cases h1 : pv.1 ∈ ["station_id", "discrepancy_score", "sector_id", "has_extended_cells"]
  · rw [if_pos h1]
    exact Or.inl rfl
  · rw [if_neg h1]
    by_cases h2 : pv.1 = "latitude" ∨ pv.1 = "longitude"
    · rw [if_pos ⟨rfl, h2⟩]
      exact Or.inl rfl
    · rw [if_neg (by simp [h2])]
      by_cases h3 : pv.1 ∉ acc.1.cols
      · rw [if_pos h3]
        exact Or.inl rfl
      · rw [if_neg h3]
        split
        · exact Or.inr ⟨fun hc => h2 (Or.inl hc), fun hc => h2 (Or.inr hc), rfl⟩
        · exact Or.inl rfl

theorem fold_apply_skips_coords (ta : Bool) (sid : Value) (sn : String) (affected : Nat)
    (params : List (String × Value)) (acc : Sheet × List CorrectionRecord)
    (hacc : ∀ rec ∈ acc.2, rec.parameter ≠ "latitude" ∧ rec.parameter ≠ "longitude") :
    (∀ rec ∈ (params.foldl (applyParamStep ta true sid sn affected) acc).2,
      rec.parameter ≠ "latitude" ∧ rec.parameter ≠ "longitude") ∧
    sheetCoordView (params.foldl (applyParamStep ta true sid sn affected) acc).1 =
      sheetCoordView acc.1 := by
  induction params generalizing acc with
  | nil => exact ⟨hacc, rfl⟩
  | cons pv rest ih =>
    rw [List.foldl_cons]
    rcases applyParamStep_skip_true ta sid sn affected acc pv with heq | ⟨hlat, hlon, heq⟩
    · rw [heq]
      exact ih acc hacc
    · rw [heq]
      have hstep := ih
        ({ cols := acc.1.cols,
           rows := acc.1.rows.map (fun r =>
             if Value.pyEq (kvGet r "station_id") sid then kvSet r pv.1 pv.2 else r) },
         acc.2 ++ [⟨sid, sn, pv.1,
           uniqueListBy Value.pyEq
             ((acc.1.rows.filter (fun r => Value.pyEq (kvGet r "station_id") sid)).map
               (fun r => kvGet r pv.1)),
           pv.2, affected, recordSource ta pv.1⟩])
        (by
          intro rec hrec
          rcases List.mem_append.mp hrec with hmem | hmem
          · exact hacc rec hmem
          · simp only [List.mem_singleton] at hmem
            subst hmem
            exact ⟨hlat, hlon⟩)
      refine ⟨hstep.1, ?_⟩
      rw [hstep.2]
      unfold sheetCoordView
      simp only [List.map_map]
      apply List.map_congr_left
      intro r hr
      simp only [Function.comp_apply]
      split
      · rw [kvGet_kvSet_ne _ _ _ _ (fun hc => hlat hc.symm),
          kvGet_kvSet_ne _ _ _ _ (fun hc => hlon hc.symm)]
      · rfl

theorem applyParamsToSheet_skips_coords (ta : Bool) (sid : Value) (sn : String) (sh : Sheet)
    (cv : Row) :
    (∀ rec ∈ (applyParamsToSheet ta true sid sn sh cv).2,
      rec.parameter ≠ "latitude" ∧ rec.parameter ≠ "longitude") ∧
    sheetCoordView (applyParamsToSheet ta true sid sn sh cv).1 = sheetCoordView sh := by
  unfold applyParamsToSheet
  split
  · exact ⟨by simp, rfl⟩
  · exact fold_apply_skips_coords ta sid sn _ cv (sh, []) (by simp)

theorem applyConsolidatedStep_skip_true (sid : Value) (acc : Sheet) (pv : String × Value) :
    applyConsolidatedStep true sid acc pv = acc ∨
    (pv.1 ≠ "latitude" ∧ pv.1 ≠ "longitude" ∧
     applyConsolidatedStep true sid acc pv =
       { cols := acc.cols,
         rows := acc.rows.map (fun r =>
           if Value.pyEq (kvGet r "station_id") sid then kvSet r pv.1 pv.2 else r) }) := by
  unfold applyConsolidatedStep
  by_cases h1 : pv.1 ∈ ["station_id", "discrepancy_score", "has_extended_cells"]
  · rw [if_pos h1]
    exact Or.inl rfl
  · rw [if_neg h1]
    by_cases h2 : pv.1 = "latitude" ∨ pv.1 = "longitude"
    · rw [if_pos ⟨rfl, h2⟩]
      exact Or.inl rfl
    · rw [if_neg (by simp [h2])]
      by_cases h3 : pv.1 ∉ acc.cols
      · rw [if_pos h3]
        exact Or.inl rfl
      · rw [if_neg h3]
        exact Or.inr ⟨fun hc => h2 (Or.inl hc), fun hc => h2 (Or.inr hc), rfl⟩

theorem fold_consolidated_skips_coords (sid : Value) (params : List (String × Value))
    (df : Sheet) :
    sheetCoordView (params.foldl (applyConsolidatedStep true sid) df) = sheetCoordView df := by
  induction params generalizing df with
  | nil => rfl
  | cons pv rest ih =>
    rw [List.foldl_cons]
    rcases applyConsolidatedStep_skip_true sid df pv with heq | ⟨hlat, hlon, heq⟩
    · rw [heq]
      exact ih df
    · rw [heq]
      rw [ih _]
      unfold sheetCoordView
      simp only [List.map_map]
      apply List.map_congr_left
      intro r hr
      simp only [Function.comp_apply]
      split
      · rw [kvGet_kvSet_ne _ _ _ _ (fun hc => hlat hc.symm),
          kvGet_kvSet_ne _ _ _ _ (fun hc => hlon hc.symm)]
      · rfl

theorem applyToConsolidated_skips_coords (sid : Value) (df : Sheet) (cv : Row) :
    sheetCoordView (applyToConsolidated true sid df cv) = sheetCoordView df := by
  unfold applyToConsolidated
  split
  · rfl
  · exact fold_consolidated_skips_coords sid cv df

theorem applyCorrections_skips_coords (st : EngineState) (sid : Value) (cv : Row)
    (h : Value.truthy (kvGet cv "has_extended_cells") = true) :
    (∀ rec ∈ (applyCorrections st sid cv).records,
      rec.parameter ≠ "latitude" ∧ rec.parameter ≠ "longitude") ∧
    coordView (applyCorrections st sid cv).sheets = coordView st.sheets ∧
    sheetCoordView (applyCorrections st sid cv).dfPhysical = sheetCoordView st.dfPhysical := by
  unfold applyCorrections
  rw [h]
  refine ⟨?_, ?_, applyToConsolidated_skips_coords sid st.dfPhysical cv⟩
  · intro rec hrec
    simp only [List.mem_flatMap] at hrec
    obtain ⟨p, hp, hmem⟩ := hrec
    exact (applyParamsToSheet_skips_coords st.templateManager.isSome sid p.1 p.2 cv).1 rec hmem
  · unfold coordView
    simp only [List.map_map]
    apply List.map_congr_left
    intro p hp
    simp only [Function.comp_apply]
    rw [(applyParamsToSheet_skips_coords st.templateManager.isSome sid p.1 p.2 cv).2]

theorem markedSheets_coordView (st : EngineState) (sid : Value) :
    coordView (markedSheets st sid) = coordView st.sheets := by
  unfold markedSheets
  split
  · unfold coordView
    simp only [List.map_map]
    apply List.map_congr_left
    intro p hp
    simp only [Function.comp_apply]
    rw [markExtendedCells_coordView]
  · rfl

theorem correctValuesInit_flag (st : EngineState) (stationData : Row) :
    kvGet (correctValuesInit st stationData) "has_extended_cells" =
      Value.bool (decide (detectForStation st (kvGet stationData "station_id") ≠ [])) := by
  rfl

theorem processAnomalousStation_flag (st : EngineState) (stationData : Row) :
    kvGet (processAnomalousStation st stationData).correctValues "has_extended_cells" =
      Value.bool (decide ((processAnomalousStation st stationData).extendedCells ≠ [])) := by
  show kvGet (processAnomalousStation st stationData).correctValues "has_extended_cells" = _
  unfold processAnomalousStation
  cases st.templateManager with
  | none =>
    rw [completeBlankFields_preserves _ _ _ _ _ (by decide)]
    exact correctValuesInit_flag st stationData
  | some t =>
    rw [fillMissingParameters_preserves _ _ _ _ (by decide)]
    rw [completeBlankFields_preserves _ _ _ _ _ (by decide)]
    exact correctValuesInit_flag st stationData

/-- C2: when extended-cell detection finds at least one extended cell for the
station being processed, the subsequent `apply_corrections` leaves the
latitude and longitude of every row of every sheet (and of the consolidated
table) unchanged and emits no `CorrectionRecord` for those parameters,
whatever the discrepancy score is. -/
theorem extended_cells_suppress_coordinate_corrections (st : EngineState) (stationData : Row)
    (hext : (processStationAndApply st stationData).1.extendedCells ≠ []) :
    (∀ rec ∈ (processStationAndApply st stationData).2.records,
      rec.parameter ≠ "latitude" ∧ rec.parameter ≠ "longitude") ∧
    coordView (processStationAndApply st stationData).2.sheets = coordView st.sheets ∧
    sheetCoordView (processStationAndApply st stationData).2.dfPhysical =
      sheetCoordView st.dfPhysical := by
  have hflag : Value.truthy
      (kvGet (processAnomalousStation st stationData).correctValues "has_extended_cells") =
      true := by
    rw [processAnomalousStation_flag]
    have hx : (processAnomalousStation st stationData).extendedCells ≠ [] := hext
    simp [Value.truthy, hx]
  have hmain := applyCorrections_skips_coords
    { st with sheets := (processAnomalousStation st stationData).sheets }
    (kvGet stationData "station_id") (processAnomalousStation st stationData).correctValues hflag
  refine ⟨hmain.1, ?_, hmain.2.2⟩
  calc coordView (processStationAndApply st stationData).2.sheets
      = coordView (processAnomalousStation st stationData).sheets := hmain.2.1
    _ = coordView st.sheets := by
        show coordView (markedSheets st (kvGet stationData "station_id")) = _
        exact markedSheets_coordView st (kvGet stationData "station_id")

/-! Concrete extended-cell scenario: station `ABB` with its main location at
`(10, 20)` and sector `ABBR1` half a degree away. -/

def c2RowA : Row :=
  [("station_id", .str "ABB"), ("station_cell_id", .str "ABB1"),
   ("latitude", .rat ⟨10, 1⟩), ("longitude", .rat ⟨20, 1⟩), ("cell_type", .str "Macro Cell")]

def c2RowB : Row :=
  [("station_id", .str "ABB"), ("station_cell_id", .str "ABB2"),
   ("latitude", .rat ⟨10, 1⟩), ("longitude", .rat ⟨20, 1⟩), ("cell_type", .str "Macro Cell")]

def c2RowC : Row :=
  [("station_id", .str "ABB"), ("station_cell_id", .str "ABBR1"),
   ("latitude", .rat ⟨21, 2⟩), ("longitude", .rat ⟨20, 1⟩), ("cell_type", .str "Macro Cell")]

def c2Sheet : Sheet :=
  { cols := ["station_id", "station_cell_id", "latitude", "longitude", "cell_type"],
    rows := [c2RowA, c2RowB, c2RowC] }

def c2State : EngineState :=
  { sheets := [("lte", c2Sheet)], dfPhysical := c2Sheet, config := cfgWitness,
    templateManager := Option.none, detectorActive := true }

def c2Station : Row :=
  [("station_id", .str "ABB"), ("name", .none), ("latitude", .none),
   ("longitude", .none), ("structure_height", .none),
   ("structure_owner", .none), ("structure_type", .none)]

/-- Witness for C2: `ABBR1` is detected as an extended cell, and the full
process-and-apply pass leaves all coordinates as they were. -/
theorem extended_cells_suppress_coordinates_witness :
    (processStationAndApply c2State c2Station).1.extendedCells = [Value.str "ABBR1"] ∧
    coordView (processStationAndApply c2State c2Station).2.sheets = coordView c2State.sheets ∧
    sheetCoordView (processStationAndApply c2State c2Station).2.dfPhysical =
      sheetCoordView c2State.dfPhysical :=
  ⟨by decide,
   (extended_cells_suppress_coordinate_corrections c2State c2Station (by decide)).2.1,
   (extended_cells_suppress_coordinate_corrections c2State c2Station (by decide)).2.2⟩

/-- Witness for C6 on the `ABB` station: exactly the far-away `ABBR1` sector
(pattern match and distance beyond the threshold) is flagged; `ABB1`/`ABB2`
do not match the pattern and are not flagged. -/
theorem extended_cell_detection_witness :
    2 ≤ (coordGroups c2Sheet.cols c2Sheet.rows).length ∧
    detectExtendedCellsInStation cfgWitness c2Sheet.cols c2Sheet.rows = [Value.str "ABBR1"] := by
  constructor
  · decide
  · rw [(extended_cell_detection_characterization cfgWitness c2Sheet.cols c2Sheet.rows
      (by decide) (by decide) (by decide)).2 c2RowA [c2RowB, c2RowC] rfl (by decide)]
    decide

/-! Positivity and maximality facts about the fuzzy best match. -/

theorem calcNameSimilarity_pos (a b : Value) : (calcNameSimilarity a b).Pos := by
  unfold calcNameSimilarity
  split
  · exact Nat.one_pos
  · unfold similarityScore
    split
    · exact Nat.one_pos
    · rename_i hne
      have hlen : 0 < (normalizeName (pyStr a)).length + (normalizeName (pyStr b)).length :=
        Nat.pos_of_ne_zero hne
      have h1 : ¬ (MyQ.ofNat
          ((normalizeName (pyStr a)).length + (normalizeName (pyStr b)).length)).num = 0 := by
        simp only [MyQ.ofNat]
        omega
      have h2 : 0 < (MyQ.ofNat
          ((normalizeName (pyStr a)).length + (normalizeName (pyStr b)).length)).num := by
        simp only [MyQ.ofNat]
        omega
      unfold MyQ.div
      rw [if_neg h1, if_pos h2]
      unfold MyQ.Pos
      simp only [MyQ.ofNat]
      omega

theorem bestFuzzy_fold_spec (tn : Value) (cands : List String) (acc : Option String × MyQ)
    (hpos : acc.2.Pos) :
    (cands.foldl (fun best c =>
      if MyQ.blt best.2 (calcNameSimilarity tn (.str c)) then
        (some c, calcNameSimilarity tn (.str c))
      else best) acc).2.Pos ∧
    acc.2.toRat ≤ (cands.foldl (fun best c =>
      if MyQ.blt best.2 (calcNameSimilarity tn (.str c)) then
        (some c, calcNameSimilarity tn (.str c))
      else best) acc).2.toRat ∧
    (∀ c ∈ cands, (calcNameSimilarity tn (.str c)).toRat ≤ (cands.foldl (fun best c =>
      if MyQ.blt best.2 (calcNameSimilarity tn (.str c)) then
        (some c, calcNameSimilarity tn (.str c))
      else best) acc).2.toRat) ∧
    ((cands.foldl (fun best c =>
      if MyQ.blt best.2 (calcNameSimilarity tn (.str c)) then
        (some c, calcNameSimilarity tn (.str c))
      else best) acc) = acc ∨
     ∃ c ∈ cands, (cands.foldl (fun best c =>
      if MyQ.blt best.2 (calcNameSimilarity tn (.str c)) then
        (some c, calcNameSimilarity tn (.str c))
      else best) acc).1 = some c ∧
      (calcNameSimilarity tn (.str c)).toRat = (cands.foldl (fun best c =>
      if MyQ.blt best.2 (calcNameSimilarity tn (.str c)) then
        (some c, calcNameSimilarity tn (.str c))
      else best) acc).2.toRat) := by
  induction cands generalizing acc with
  | nil => exact ⟨hpos, le_refl _, by simp, Or.inl rfl⟩
  | cons c r ih =>
    rw [List.foldl_cons]
    by_cases hb : MyQ.blt acc.2 (calcNameSimilarity tn (.str c))
    · rw [if_pos hb]
      have hcp : (calcNameSimilarity tn (.str c)).Pos := calcNameSimilarity_pos tn (.str c)
      have hih := ih (some c, calcNameSimilarity tn (.str c)) hcp
      have hlt : acc.2.toRat < (calcNameSimilarity tn (.str c)).toRat :=
        (MyQ.toRat_lt_iff hpos hcp).mp hb
      refine ⟨hih.1, le_trans (le_of_lt hlt) hih.2.1, ?_, ?_⟩
      · intro d hd
        rcases List.mem_cons.mp hd with h1 | h1
        · subst h1
          exact hih.2.1
        · exact hih.2.2.1 d h1
      · rcases hih.2.2.2 with h1 | h1
        · right
          exact ⟨c, List.mem_cons_self c r, by rw [h1], by rw [h1]⟩
        · right
          obtain ⟨d, hd, h2, h3⟩ := h1
          exact ⟨d, List.mem_cons_of_mem c hd, h2, h3⟩
    · rw [if_neg hb]
      have hcp : (calcNameSimilarity tn (.str c)).Pos := calcNameSimilarity_pos tn (.str c)
      have hle : (calcNameSimilarity tn (.str c)).toRat ≤ acc.2.toRat := by
        by_contra hcon
        exact hb ((MyQ.toRat_lt_iff hpos hcp).mpr (lt_of_not_le hcon))
      have hih := ih acc hpos
      refine ⟨hih.1, hih.2.1, ?_, ?_⟩
      · intro d hd
        rcases List.mem_cons.mp hd with h1 | h1
        · subst h1
          exact le_trans hle hih.2.1
        · exact hih.2.2.1 d h1
      · rcases hih.2.2.2 with h1 | h1
        · exact Or.inl h1
        · right
          obtain ⟨d, hd, h2, h3⟩ := h1
          exact ⟨d, List.mem_cons_of_mem c hd, h2, h3⟩

theorem bestFuzzyMatch_spec (tn : Value) (cands : List String) :
    (bestFuzzyMatch tn cands).2.Pos ∧
    (∀ c ∈ cands,
      (calcNameSimilarity tn (.str c)).toRat ≤ (bestFuzzyMatch tn cands).2.toRat) ∧
    (∀ c, (bestFuzzyMatch tn cands).1 = some c →
      c ∈ cands ∧ (calcNameSimilarity tn (.str c)).toRat = (bestFuzzyMatch tn cands).2.toRat) ∧
    ((bestFuzzyMatch tn cands).1 = Option.none → (bestFuzzyMatch tn cands).2 = MyQ.zero) := by
  have h := bestFuzzy_fold_spec tn cands (Option.none, MyQ.zero) Nat.one_pos
  refine ⟨h.1, h.2.2.1, ?_, ?_⟩
  · intro c hc
    rcases h.2.2.2 with h1 | h1
    · have h1' : bestFuzzyMatch tn cands = (Option.none, MyQ.zero) := h1
      rw [h1'] at hc
      cases hc
    · obtain ⟨d, hd, h2, h3⟩ := h1
      have h2' : (bestFuzzyMatch tn cands).1 = some d := h2
      rw [h2'] at hc
      cases hc
      exact ⟨hd, h3⟩
  · intro hc
    rcases h.2.2.2 with h1 | h1
    · have h1' : bestFuzzyMatch tn cands = (Option.none, MyQ.zero) := h1
      rw [h1']
    · obtain ⟨d, hd, h2, h3⟩ := h1
      have h2' : (bestFuzzyMatch tn cands).1 = some d := h2
      rw [h2'] at hc
      cases hc

theorem maxByLen_mem (x : String) (l : List String) : maxByLen x l ∈ x :: l := by
  unfold maxByLen
  induction l generalizing x with
  | nil => simp
  | cons a r ih =>
    simp only [List.foldl_cons]
    by_cases h : x.length < a.length
    · rw [show (if x.length < a.length then a else x) = a from if_pos h]
      have := ih a
      simp only [List.mem_cons] at this ⊢
      tauto
    · rw [show (if x.length < a.length then a else x) = x from if_neg h]
      have := ih x
      simp only [List.mem_cons] at this ⊢
      tauto

theorem maxByLen_ge (x : String) (l : List String) :
    ∀ y ∈ x :: l, y.length ≤ (maxByLen x l).length := by
  unfold maxByLen
  induction l generalizing x with
  | nil =>
    intro y hy
    simp only [List.mem_cons, List.not_mem_nil, or_false] at hy
    subst hy
    simp
  | cons a r ih =>
    intro y hy
    simp only [List.foldl_cons]
    by_cases h : x.length < a.length
    · rw [show (if x.length < a.length then a else x) = a from if_pos h]
      rcases List.mem_cons.mp hy with h1 | h1
      · have ha := ih a a (List.mem_cons_self a r)
        subst h1
        omega
      · rcases List.mem_cons.mp h1 with h2 | h2
        · subst h2
          exact ih y y (List.mem_cons_self y r)
        · exact ih a y (List.mem_cons_of_mem a h2)
    · rw [show (if x.length < a.length then a else x) = x from if_neg h]
      rcases List.mem_cons.mp hy with h1 | h1
      · subst h1
        exact ih y y (List.mem_cons_self y r)
      · rcases List.mem_cons.mp h1 with h2 | h2
        · have hxx := ih x x (List.mem_cons_self x r)
          subst h2
          omega
        · exact ih x y (List.mem_cons_of_mem x h2)

theorem getReferenceName_eq (t : Template) (cfg : Config) (sid : Value) (cands : List String)
    (r : Row) (rs : List Row) (tn : Value) (tnames : List Value)
    (hrs : getStationData t sid = r :: rs) (hcol : "name" ∈ t.cols)
    (htn : uniqueListBy Value.pyEq (((r :: rs).map (fun rr => cellGet t.cols rr "name")).filter
      (· ≠ Value.none)) = tn :: tnames) :
    getReferenceName t cfg sid cands =
      if cands = [] then some tn
      else if templateNameInCandidates tn cands then some tn
      else if cfg.useFuzzyMatching then
        if MyQ.ble cfg.similarityThreshold (bestFuzzyMatch tn cands).2 then
          (bestFuzzyMatch tn cands).1.map Value.str
        else some tn
      else some tn := by
  simp only [getReferenceName, hrs]
  rw [if_neg (by simp [hcol]), htn]

theorem getReferenceName_no_template_row (t : Template) (cfg : Config) (sid : Value)
    (cands : List String) (h : getStationData t sid = []) :
    getReferenceName t cfg sid cands = Option.none := by
  simp only [getReferenceName, h]

/-- C9 (amended): with a template row present (first template name `tn`) and
a nonempty candidate list, `get_reference_name` returns `tn` when it is
exactly one of the candidates; otherwise, with fuzzy matching on and the
best similarity at least the threshold, it returns the first candidate of
maximal normalized similarity when some candidate has positive similarity,
but returns no value when every candidate has similarity zero (then the
caller falls back); when the best similarity is below the threshold, or
fuzzy matching is off, it returns the template name verbatim even though it
was never observed as a candidate.  With no template row it returns no value
and `select_best_name` falls back to the first longest candidate. -/
theorem get_reference_name_resolution_policy (t : Template) (cfg : Config) (sid : Value)
    (cands : List String) (tn : Value) (tnames : List Value)
    (hrows : getStationData t sid ≠ [])
    (hcol : "name" ∈ t.cols)
    (htn : uniqueListBy Value.pyEq
      (((getStationData t sid).map (fun rr => cellGet t.cols rr "name")).filter
        (· ≠ Value.none)) = tn :: tnames)
    (hcands : cands ≠ []) :
    (templateNameInCandidates tn cands = true → getReferenceName t cfg sid cands = some tn) ∧
    (templateNameInCandidates tn cands = false → cfg.useFuzzyMatching = true →
      MyQ.ble cfg.similarityThreshold (bestFuzzyMatch tn cands).2 = true →
      (∀ c, (bestFuzzyMatch tn cands).1 = some c →
        getReferenceName t cfg sid cands = some (.str c) ∧ c ∈ cands ∧
        ∀ d ∈ cands, (calcNameSimilarity tn (.str d)).toRat ≤
          (calcNameSimilarity tn (.str c)).toRat) ∧
      ((bestFuzzyMatch tn cands).1 = Option.none →
        getReferenceName t cfg sid cands = Option.none ∧
        ∀ d ∈ cands, (calcNameSimilarity tn (.str d)).toRat ≤ 0)) ∧
    (templateNameInCandidates tn cands = false → cfg.useFuzzyMatching = true →
      MyQ.ble cfg.similarityThreshold (bestFuzzyMatch tn cands).2 = false →
      getReferenceName t cfg sid cands = some tn) ∧
    (templateNameInCandidates tn cands = false → cfg.useFuzzyMatching = false →
      getReferenceName t cfg sid cands = some tn) ∧
    (∀ t2 sid2 cands2, getStationData t2 sid2 = [] →
      getReferenceName t2 cfg sid2 cands2 = Option.none) ∧
    (∀ t2 sid2 nameList v vs, getStationData t2 sid2 = [] → Value.truthy sid2 = true →
      nameList ≠ [] → validNamesOf nameList = v :: vs →
      selectBestName (some t2) cfg nameList sid2 = some (.str (maxByLen v vs)) ∧
      maxByLen v vs ∈ v :: vs ∧ ∀ y ∈ v :: vs, y.length ≤ (maxByLen v vs).length) := by
  obtain ⟨r, rs, hrs⟩ : ∃ r rs, getStationData t sid = r :: rs := by
    cases hc : getStationData t sid with
    | nil => exact absurd hc hrows
    | cons r rs => exact ⟨r, rs, rfl⟩
  rw [hrs] at htn
  have heq := getReferenceName_eq t cfg sid cands r rs tn tnames hrs hcol htn
  rw [if_neg hcands] at heq
  refine ⟨?_, ?_, ?_, ?_, ?_, ?_⟩
  · intro hin
    rw [heq, if_pos hin]
  · intro hnin hfz hble
    rw [heq, if_neg (by simp [hnin]), if_pos hfz, if_pos hble] at *
    constructor
    · intro c hc
      have hspec := bestFuzzyMatch_spec tn cands
      obtain ⟨hmem, hceq⟩ := hspec.2.2.1 c hc
      refine ⟨by rw [heq, hc]; rfl, hmem, ?_⟩
      intro d hd
      rw [hceq]
      exact hspec.2.1 d hd
    · intro hc
      have hspec := bestFuzzyMatch_spec tn cands
      have hz := hspec.2.2.2 hc
      refine ⟨by rw [heq, hc]; rfl, ?_⟩
      intro d hd
      have := hspec.2.1 d hd
      rw [hz] at this
      simpa [toRat_zero] using this
  · intro hnin hfz hble
    rw [heq, if_neg (by simp [hnin]), if_pos hfz, if_neg (by simp [hble])]
  · intro hnin hfz
    rw [heq, if_neg (by simp [hnin]), if_neg (by simp [hfz])]
  · intro t2 sid2 cands2 h
    exact getReferenceName_no_template_row t2 cfg sid2 cands2 h
  · intro t2 sid2 nameList v vs hsd htr hne hvn
    refine ⟨?_, maxByLen_mem v vs, maxByLen_ge v vs⟩
    simp only [selectBestName, if_neg hne, hvn, htr]
    rw [getReferenceName_no_template_row t2 cfg sid2 (v :: vs) hsd]
    simp

def cfgZeroThreshold : Config :=
  { cfgWitness with similarityThreshold := ⟨0, 1⟩, useFuzzyMatching := true }

def tplC9 : Template :=
  { cols := ["station_id", "name"],
    rows := [[("station_id", .str "S"), ("name", .str "xyz")]] }

/-- C9 counterexample: template name `"xyz"`, one candidate `"abc"` with
similarity exactly 0, threshold 0.  The best similarity (0) meets the
threshold, so the claim demands the best candidate; the code returns `None`
instead (its running best match was never set by the strict comparison),
and it does not return the template name either. -/
theorem get_reference_name_zero_similarity_counterexample :
    getReferenceName tplC9 cfgZeroThreshold (Value.str "S") ["abc"] = Option.none ∧
    getStationData tplC9 (Value.str "S") ≠ [] ∧
    cfgZeroThreshold.useFuzzyMatching = true ∧
    MyQ.beq (calcNameSimilarity (Value.str "xyz") (Value.str "abc")) MyQ.zero = true ∧
    MyQ.ble cfgZeroThreshold.similarityThreshold
      (calcNameSimilarity (Value.str "xyz") (Value.str "abc")) = true := by decide

def tplC9W : Template :=
  { cols := ["station_id", "name"],
    rows := [[("station_id", .str "S"), ("name", .str "ALPHA SITE")]] }

/-- Witness for the amended C9: the template name matches a candidate
exactly and is returned. -/
theorem get_reference_name_witness :
    getStationData tplC9W (Value.str "S") ≠ [] ∧
    getReferenceName tplC9W cfgWitness (Value.str "S") ["ALPHA SITE", "AS"] =
      some (Value.str "ALPHA SITE") := by
  refine ⟨by decide, ?_⟩
  exact (get_reference_name_resolution_policy tplC9W cfgWitness (Value.str "S")
    ["ALPHA SITE", "AS"] (Value.str "ALPHA SITE") [] (by decide) (by decide) (by decide)
    (by decide)).1 (by decide)

/-! Justification of the squared-distance comparison: `distExceeds sq t`
is exactly the source comparison `np.sqrt(sq) > t` over the reals. -/

theorem toRat_mul (a b : MyQ) : (MyQ.mul a b).toRat = a.toRat * b.toRat := by
  unfold MyQ.mul MyQ.toRat
  push_cast
  rw [div_mul_div_comm]

theorem toRat_absQ (a : MyQ) : (absQ a).toRat = |a.toRat| := by
  unfold absQ MyQ.toRat
  split
  · rename_i h
    rw [abs_div, abs_of_nonpos (by exact_mod_cast le_of_lt h), abs_of_nonneg (by positivity)]
    push_cast
    ring
  · rename_i h
    rw [abs_div, abs_of_nonneg (by exact_mod_cast not_lt.mp h), abs_of_nonneg (by positivity)]

theorem absQ_pos (a : MyQ) (h : a.Pos) : (absQ a).Pos := by
  unfold absQ
  split
  · exact h
  · exact h

theorem mul_pos_myq (a b : MyQ) (ha : a.Pos) (hb : b.Pos) : (MyQ.mul a b).Pos := by
  unfold MyQ.mul MyQ.Pos at *
  exact Nat.mul_pos ha hb

theorem distExceeds_iff_sqrt (sq t : MyQ) (hsq : 0 ≤ sq.toRat) (hpos : sq.Pos) (ht : t.Pos) :
    distExceeds sq t = true ↔ ((t.toRat : ℝ) < Real.sqrt (sq.toRat : ℝ)) := by
  unfold distExceeds
  rw [MyQ.toRat_lt_iff (mul_pos_myq t (absQ t) ht (absQ_pos t ht)) hpos]
  rw [toRat_mul, toRat_absQ]
  set a : ℝ := (t.toRat : ℝ) with ha
  set s : ℝ := (sq.toRat : ℝ) with hs
  have hs0 : 0 ≤ s := by
    rw [hs]
    exact_mod_cast hsq
  have hcast : (t.toRat * |t.toRat| < sq.toRat) ↔ (a * |a| < s) := by
    constructor
    · intro h
      have : ((t.toRat * |t.toRat| : ℚ) : ℝ) < ((sq.toRat : ℚ) : ℝ) := by exact_mod_cast h
      simpa [ha, hs, abs_of_nonneg, Rat.cast_abs] using this
    · intro h
      have h' : ((t.toRat * |t.toRat| : ℚ) : ℝ) < ((sq.toRat : ℚ) : ℝ) := by
        simpa [ha, hs, Rat.cast_abs] using h
      exact_mod_cast h'
  rw [hcast]
  by_cases hneg : a < 0
  · constructor
    · intro _
      exact lt_of_lt_of_le hneg (Real.sqrt_nonneg s)
    · intro _
      have h1 : a * |a| < 0 := by
        rw [abs_of_neg hneg]
        nlinarith
      linarith
  · push_neg at hneg
    rw [abs_of_nonneg hneg]
    rw [show a * a = a ^ 2 by ring]
    exact (Real.lt_sqrt hneg).symm

end RFCheck